import Mathlib

/-!
Verification of the finserv document-ingestion service (`src/finserv_api.py`).

The development shallowly embeds the Python source: pure helpers become Lean
functions, and the FastAPI endpoint handlers become programs in an explicit
state-and-exception monad `M` over a `World` holding the Solr document store,
the local filesystem, and a trace of the external effects performed
(Solr selects, extract-and-index calls, field updates, OCR runs, LLM calls,
temp-file writes and removals).  External collaborators (Solr transport
outcomes, the OCR engine, the Gemini LLM) are oracles in an `Env` record.
-/

namespace Finserv

/-! ## Content-addressed identity: SHA-256 (`calculate_file_hash`)

`calculate_file_hash` in the source is `hashlib.sha256(file_content).hexdigest()`.
SHA-256 is implemented here directly over byte lists (naturals < 256), with all
32-bit arithmetic done in `Nat` modulo `2^32`. -/

/-- The constant 2^32, the word modulus of SHA-256. -/
def w32 : Nat := 4294967296

/-- Truncate to a 32-bit word. -/
def mask32 (x : Nat) : Nat := x % w32

/-- Right rotation of a 32-bit word. -/
def rotr (n x : Nat) : Nat := mask32 ((x >>> n) ||| (x <<< (32 - n)))

/-- Function Σ0 of the SHA-256 compression function. -/
def bigS0 (x : Nat) : Nat := rotr 2 x ^^^ rotr 13 x ^^^ rotr 22 x

/-- Function Σ1 of the SHA-256 compression function. -/
def bigS1 (x : Nat) : Nat := rotr 6 x ^^^ rotr 11 x ^^^ rotr 25 x

/-- Function σ0 of the SHA-256 message schedule. -/
def smallS0 (x : Nat) : Nat := rotr 7 x ^^^ rotr 18 x ^^^ (x >>> 3)

/-- Function σ1 of the SHA-256 message schedule. -/
def smallS1 (x : Nat) : Nat := rotr 17 x ^^^ rotr 19 x ^^^ (x >>> 10)

/-- Ch(e,f,g) = (e ∧ f) ⊕ (¬e ∧ g), with 32-bit complement. -/
def chFn (e f g : Nat) : Nat := (e &&& f) ^^^ ((4294967295 - mask32 e) &&& g)

/-- Maj(a,b,c). -/
def majFn (a b c : Nat) : Nat := (a &&& b) ^^^ (a &&& c) ^^^ (b &&& c)

/-- Extend the message schedule by one word.  The accumulator holds the
schedule words most-recent-first. -/
def schedStep (acc : List Nat) : List Nat :=
  mask32 (smallS1 (acc.getD 1 0) + acc.getD 6 0 + smallS0 (acc.getD 14 0) + acc.getD 15 0) :: acc

/-- Iterate `schedStep`. -/
def schedRun : Nat → List Nat → List Nat
  | 0, acc => acc
  | n + 1, acc => schedRun n (schedStep acc)

/-- The 64-word message schedule of one 16-word block. -/
def schedule (block : List Nat) : List Nat :=
  (schedRun 48 block.reverse).reverse

/-- The eight 32-bit working variables of SHA-256. -/
structure Hash8 where
  a : Nat
  b : Nat
  c : Nat
  d : Nat
  e : Nat
  f : Nat
  g : Nat
  h : Nat
deriving Repr, DecidableEq

/-- One round of the SHA-256 compression function; `kw` is the round
constant paired with the schedule word. -/
def roundStep (st : Hash8) (kw : Nat × Nat) : Hash8 :=
  let t1 := mask32 (st.h + bigS1 st.e + chFn st.e st.f st.g + kw.1 + kw.2)
  let t2 := mask32 (bigS0 st.a + majFn st.a st.b st.c)
  ⟨mask32 (t1 + t2), st.a, st.b, st.c, mask32 (st.d + t1), st.e, st.f, st.g⟩

/-- The 64 SHA-256 round constants (FIPS 180-4, written in decimal). -/
def kConsts : List Nat :=
  [1116352408, 1899447441, 3049323471, 3921009573,
   961987163, 1508970993, 2453635748, 2870763221,
   3624381080, 310598401, 607225278, 1426881987,
   1925078388, 2162078206, 2614888103, 3248222580,
   3835390401, 4022224774, 264347078, 604807628,
   770255983, 1249150122, 1555081692, 1996064986,
   2554220882, 2821834349, 2952996808, 3210313671,
   3336571891, 3584528711, 113926993, 338241895,
   666307205, 773529912, 1294757372, 1396182291,
   1695183700, 1986661051, 2177026350, 2456956037,
   2730485921, 2820302411, 3259730800, 3345764771,
   3516065817, 3600352804, 4094571909, 275423344,
   430227734, 506948616, 659060556, 883997877,
   958139571, 1322822218, 1537002063, 1747873779,
   1955562222, 2024104815, 2227730452, 2361852424,
   2428436474, 2756734187, 3204031479, 3329325298]

/-- The SHA-256 initial hash value (FIPS 180-4, written in decimal). -/
def initH : Hash8 :=
  ⟨1779033703, 3144134277, 1013904242, 2773480762,
   1359893119, 2600822924, 528734635, 1541459225⟩

/-- Compress one 16-word block into the running hash state. -/
def compressBlock (st : Hash8) (block : List Nat) : Hash8 :=
  let r := (kConsts.zip (schedule block)).foldl roundStep st
  ⟨mask32 (st.a + r.a), mask32 (st.b + r.b), mask32 (st.c + r.c), mask32 (st.d + r.d),
   mask32 (st.e + r.e), mask32 (st.f + r.f), mask32 (st.g + r.g), mask32 (st.h + r.h)⟩

/-- Big-endian packing of bytes into 32-bit words. -/
def bytesToWords : List Nat → List Nat
  | b0 :: b1 :: b2 :: b3 :: rest => (((b0 * 256 + b1) * 256 + b2) * 256 + b3) :: bytesToWords rest
  | _ => []

/-- Split a word list into 16-word blocks. -/
def wordsToBlocks : List Nat → List (List Nat)
  | w0 :: w1 :: w2 :: w3 :: w4 :: w5 :: w6 :: w7 :: w8 :: w9 :: w10 :: w11 :: w12 :: w13 :: w14 :: w15 :: rest =>
      [w0, w1, w2, w3, w4, w5, w6, w7, w8, w9, w10, w11, w12, w13, w14, w15] :: wordsToBlocks rest
  | _ => []

/-- The 8-byte big-endian encoding of the bit length. -/
def lengthBytes (bitLen : Nat) : List Nat :=
  [(bitLen >>> 56) % 256, (bitLen >>> 48) % 256, (bitLen >>> 40) % 256, (bitLen >>> 32) % 256,
   (bitLen >>> 24) % 256, (bitLen >>> 16) % 256, (bitLen >>> 8) % 256, bitLen % 256]

/-- SHA-256 padding: append `0x80`, zero bytes to 56 mod 64, then the bit length. -/
def padMessage (msg : List Nat) : List Nat :=
  msg ++ 0x80 :: List.replicate ((119 - msg.length % 64) % 64) 0 ++ lengthBytes (8 * msg.length)

/-- Lowercase hex digit. -/
def hexChar (n : Nat) : Char := "0123456789abcdef".toList.getD n '0'

/-- Fixed-width 8-character lowercase hex rendering of a 32-bit word. -/
def wordToHex (x : Nat) : String :=
  String.mk ((List.range 8).map (fun i => hexChar ((x >>> (28 - 4 * i)) % 16)))

/-- The lowercase hex SHA-256 digest of a byte list. -/
def sha256hex (msg : List Nat) : String :=
  let st := (wordsToBlocks (bytesToWords (padMessage msg))).foldl compressBlock initH
  wordToHex st.a ++ wordToHex st.b ++ wordToHex st.c ++ wordToHex st.d ++
    wordToHex st.e ++ wordToHex st.f ++ wordToHex st.g ++ wordToHex st.h

/-- Source: `calculate_file_hash(file_content)` = `hashlib.sha256(file_content).hexdigest()`
(finserv_api.py lines 36-38). -/
def calculate_file_hash (file_content : List Nat) : String := sha256hex file_content

/-- The document identifier computed by `upload_and_process_pdf`
(finserv_api.py lines 275-276): `doc_id = f"doc_{file_hash}"`. -/
def docIdOf (content : List Nat) : String := "doc_" ++ calculate_file_hash content

set_option maxRecDepth 100000

/-- SHA-256 test vector: the digest of the empty message. -/
theorem sha256hex_nil :
    sha256hex [] = "e3b0c44298fc1c149afbf4c8996fb92427ae41e4649b934ca495991b7852b855" := by
  decide

/-- SHA-256 test vector: the digest of "abc". -/
theorem sha256hex_abc :
    sha256hex [97, 98, 99] = "ba7816bf8f01cfea414140de5dae2223b00361a396177a9cb410ff61f20015ad" := by
  decide

/-! ## Python string primitives

The handful of `str` methods the source uses are modelled directly over the
character list of a `String`, by structural recursion (so that they evaluate
inside the kernel), following Python semantics: `strip` (ASCII whitespace),
`endswith`, `startswith`, slicing `[n:]`, `replace` (all occurrences,
left-to-right, non-overlapping) and `sep.join`. -/

/-- The ASCII whitespace characters stripped by Python `str.strip()`. -/
def isPySpace (c : Char) : Bool :=
  c == ' ' || c == '\t' || c == '\n' || c == '\r' || c == '\x0b' || c == '\x0c'

/-- Python `s.strip()`. -/
def pyStrip (s : String) : String :=
  ⟨(((s.data.dropWhile isPySpace).reverse.dropWhile isPySpace).reverse : List Char)⟩

/-- Python `s.endswith(suffix)`. -/
def pyEndsWith (s suffix : String) : Bool :=
  suffix.data.isSuffixOf s.data

/-- Python `s.startswith(pre)`. -/
def pyStartsWith (s pre : String) : Bool :=
  pre.data.isPrefixOf s.data

/-- Python `s[n:]`. -/
def pyDrop (s : String) (n : Nat) : String := ⟨s.data.drop n⟩

/-- Fuelled worker for `str.replace`. -/
def replaceAux (old new : List Char) : Nat → List Char → List Char
  | _, [] => []
  | 0, l => l
  | fuel + 1, c :: rest =>
    if old.isPrefixOf (c :: rest) then new ++ replaceAux old new fuel ((c :: rest).drop old.length)
    else c :: replaceAux old new fuel rest

/-- Python `s.replace(old, new)`. -/
def pyReplace (s old new : String) : String :=
  ⟨replaceAux old.data new.data s.data.length s.data⟩

/-- Python `sep.join(parts)`. -/
def pyJoin (sep : String) : List String → String
  | [] => ""
  | [x] => x
  | x :: xs => x ++ sep ++ pyJoin sep xs

/-! ## Data model of the external Solr store

Solr multivalued fields come back from `/select` as JSON arrays; the source
indexes `summary` and `attr_stream_source_info` with `[0]` under a truthiness
guard, and explicitly branches on `isinstance(..., list)` for `file_uri` and
`attr_content`, so the latter two are modelled with both shapes. -/

/-- A Solr field value as seen in a `/select` JSON response: either a scalar
string or an array of strings. -/
inductive FieldVal where
  | str : String → FieldVal
  | arr : List String → FieldVal
deriving Repr, DecidableEq

/-- The fields of one Solr document record that the source reads
(`fl` lists `id,summary,attr_stream_source_info,file_uri` and `attr_content`). -/
structure SolrDoc where
  summary : Option (List String) := none
  attr_stream_source_info : Option (List String) := none
  file_uri : Option FieldVal := none
  attr_content : Option FieldVal := none
deriving Repr, DecidableEq

/-- Python truthiness of an optional field value: `None`, `""` and `[]` are falsy. -/
def fieldTruthy : Option FieldVal → Bool
  | none => false
  | some (.str s) => s != ""
  | some (.arr l) => l != []

/-- Source: `existing_doc.get("summary", [""])[0] if existing_doc.get("summary") else ""`
(finserv_api.py line 284 / line 629). -/
def existingSummary (d : SolrDoc) : String :=
  match d.summary with
  | some (s :: _) => s
  | _ => ""

/-- Source: `existing_doc.get("attr_stream_source_info", [dflt])[0] if ... else dflt`
(finserv_api.py lines 283, 455, 561, 628). -/
def origFilename (d : SolrDoc) (dflt : String) : String :=
  match d.attr_stream_source_info with
  | some (s :: _) => s
  | _ => dflt

/-- Source: `docs[0].get("attr_content", "")` followed by `" ".join(text)` when the
value is a list (finserv_api.py lines 77-79, 156-158). -/
def contentToText : Option FieldVal → String
  | none => ""
  | some (.str s) => s
  | some (.arr l) => pyJoin " " l

/-- Source: `existing_doc["file_uri"][0] if isinstance(existing_doc["file_uri"], list)
else existing_doc["file_uri"]` (finserv_api.py line 309 / 467). -/
def fileUriToPath : FieldVal → String
  | .arr l => l.headD ""
  | .str s => s

/-- Strip a `file://` scheme prefix: `file_uri[7:]` when `file_uri.startswith("file://")`
(finserv_api.py lines 311-314 / 469-472). -/
def stripScheme (uri : String) : String :=
  if pyStartsWith uri "file://" then pyDrop uri 7 else uri

/-! ## Effects, errors and the request monad -/

/-- One externally visible effect of a request: Solr queries and writes,
temp-file writes and removals, OCR runs, and LLM calls. -/
inductive Effect where
  | select (docId : String)
  | extract (docId path : String)
  | updateOcr (docId text : String)
  | updateSummary (docId text : String)
  | writeTemp (path : String)
  | removeTemp (path : String)
  | ocrRun (path : String)
  | llmCall (prompt : String)
deriving Repr, DecidableEq

/-- A Python exception: either a FastAPI `HTTPException(status_code, detail)`
or a plain `Exception(msg)`. -/
inductive PyErr where
  | httpExc (code : Nat) (detail : String)
  | exc (msg : String)
deriving Repr, DecidableEq

/-- Source: `str(e)` for an embedded exception. -/
def PyErr.toMessage : PyErr → String
  | .httpExc _ detail => detail
  | .exc m => m

/-- One part of a Gemini candidate content. -/
structure GemPart where
  text : String
deriving Repr, DecidableEq

/-- The content of a Gemini candidate; `none` models a missing/falsy content. -/
structure GemContent where
  parts : List GemPart
deriving Repr, DecidableEq

/-- One Gemini response candidate. -/
structure GemCandidate where
  content : Option GemContent
deriving Repr, DecidableEq

/-- A Gemini `generate_content` response. -/
structure GemResponse where
  candidates : List GemCandidate
deriving Repr, DecidableEq

/-- Oracles for the external collaborators: whether each Solr HTTP call fails
(`raise_for_status`), the record produced by extract-and-index, the OCR engine
(keyed by the bytes of the file it reads), and the Gemini LLM (keyed by the
prompt; `Except.error` models a raised exception). -/
structure Env where
  selectErr : Bool := false
  getTextErr : Bool := false
  fallbackSelectErr : Bool := false
  extractErr : Bool := false
  updateOcrErr : Bool := false
  updateSummaryErr : Bool := false
  extractedDoc : String → String → SolrDoc := fun _ _ => {}
  ocr : List Nat → String := fun _ => ""
  gemini : String → Except Unit GemResponse := fun _ => .error ()

/-- The mutable world of one request: the Solr store, the local filesystem
(path to file bytes), and the trace of effects performed so far. -/
structure World where
  store : String → Option SolrDoc
  files : String → Option (List Nat)
  trace : List Effect

/-- The request monad: state over `World` with Python exceptions. -/
def M (α : Type) : Type := World → Except PyErr α × World

def M.pure (a : α) : M α := fun w => (.ok a, w)

def M.bind (x : M α) (f : α → M β) : M β := fun w =>
  match x w with
  | (.ok a, w2) => f a w2
  | (.error e, w2) => (.error e, w2)

instance : Monad M where
  pure := M.pure
  bind := M.bind

/-- Source: `raise e`. -/
def M.throw (e : PyErr) : M α := fun w => (.error e, w)

/-- Source: `try: x except: handle`. -/
def M.tryCatch (x : M α) (handle : PyErr → M α) : M α := fun w =>
  match x w with
  | (.ok a, w2) => (.ok a, w2)
  | (.error e, w2) => handle e w2

/-- Source: `try: x finally: fin`; an exception raised by `fin` replaces the result,
and the final world is always the one `fin` leaves. -/
def M.finallyDo (x : M α) (fin : M Unit) : M α := fun w =>
  let r := x w
  let rf := fin r.2
  ((match rf.1 with | .ok _ => r.1 | .error e2 => .error e2), rf.2)

/-- Record an effect. -/
def M.emit (e : Effect) : M Unit := fun w => (.ok (), { w with trace := w.trace ++ [e] })

/-- Read the record under `docId` from the store. -/
def M.getStore (docId : String) : M (Option SolrDoc) := fun w => (.ok (w.store docId), w)

/-- Replace the record under `docId` (extract-and-index commit). -/
def M.putStore (docId : String) (d : SolrDoc) : M Unit := fun w =>
  (.ok (), { w with store := fun i => if i = docId then some d else w.store i })

/-- Atomic update `{"attr_content": {"set": text}}`. -/
def M.setContentField (docId : String) (text : String) : M Unit := fun w =>
  let d2 : SolrDoc :=
    match w.store docId with
    | some d => { d with attr_content := some (.str text) }
    | none => { attr_content := some (.str text) }
  (.ok (), { w with store := fun i => if i = docId then some d2 else w.store i })

/-- Atomic update `{"summary": {"set": s}}`; a later `/select` returns the
multivalued field as a one-element array. -/
def M.setSummaryField (docId : String) (s : String) : M Unit := fun w =>
  let d2 : SolrDoc :=
    match w.store docId with
    | some d => { d with summary := some [s] }
    | none => { summary := some [s] }
  (.ok (), { w with store := fun i => if i = docId then some d2 else w.store i })

/-- Source: `os.path.exists(p)`. -/
def M.pathExists (p : String) : M Bool := fun w => (.ok (w.files p).isSome, w)

/-- Read the bytes of the file at `p`, if any. -/
def M.readFile (p : String) : M (Option (List Nat)) := fun w => (.ok (w.files p), w)

/-- Source: `open(p, "wb").write(content)`. -/
def M.writeFile (p : String) (content : List Nat) : M Unit := fun w =>
  (.ok (), { w with files := fun q => if q = p then some content else w.files q,
                    trace := w.trace ++ [.writeTemp p] })

/-- Source: `os.remove(p)`. -/
def M.removeFile (p : String) : M Unit := fun w =>
  (.ok (), { w with files := fun q => if q = p then none else w.files q,
                    trace := w.trace ++ [.removeTemp p] })

@[simp] theorem M.bind_eq (x : M α) (f : α → M β) : x >>= f = M.bind x f := rfl

@[simp] theorem M.pure_eq (a : α) : (Pure.pure a : M α) = M.pure a := rfl

@[simp] theorem M.pure_apply (a : α) (w : World) : M.pure a w = (.ok a, w) := rfl

@[simp] theorem M.throw_apply (e : PyErr) (w : World) : (M.throw e : M α) w = (.error e, w) := rfl

@[simp] theorem M.bind_assoc (x : M α) (f : α → M β) (g : β → M γ) :
    M.bind (M.bind x f) g = M.bind x (fun a => M.bind (f a) g) := by
  funext w
  unfold M.bind
  cases hx : x w with
  | mk r w2 => cases r <;> simp

@[simp] theorem M.bind_pure (a : α) (f : α → M β) (w : World) :
    M.bind (M.pure a) f w = f a w := rfl

@[simp] theorem M.bind_throw (e : PyErr) (f : α → M β) (w : World) :
    M.bind (M.throw e) f w = (.error e, w) := rfl

@[simp] theorem M.bind_emit (e : Effect) (f : Unit → M β) (w : World) :
    M.bind (M.emit e) f w = f () { w with trace := w.trace ++ [e] } := rfl

@[simp] theorem M.bind_getStore (docId : String) (f : Option SolrDoc → M β) (w : World) :
    M.bind (M.getStore docId) f w = f (w.store docId) w := rfl

@[simp] theorem M.bind_pathExists (p : String) (f : Bool → M β) (w : World) :
    M.bind (M.pathExists p) f w = f (w.files p).isSome w := rfl

@[simp] theorem M.bind_readFile (p : String) (f : Option (List Nat) → M β) (w : World) :
    M.bind (M.readFile p) f w = f (w.files p) w := rfl

@[simp] theorem M.bind_writeFile (p : String) (c : List Nat) (f : Unit → M β) (w : World) :
    M.bind (M.writeFile p c) f w =
      f () { w with files := fun q => if q = p then some c else w.files q,
                    trace := w.trace ++ [.writeTemp p] } := rfl

@[simp] theorem M.bind_removeFile (p : String) (f : Unit → M β) (w : World) :
    M.bind (M.removeFile p) f w =
      f () { w with files := fun q => if q = p then none else w.files q,
                    trace := w.trace ++ [.removeTemp p] } := rfl

/-! ## Embedded library functions -/

/-- Source: `check_document_exists(doc_id)` (finserv_api.py lines 40-52): `/select` by id,
`raise_for_status`, then `(len(docs) > 0, docs[0] or None)`. -/
def check_document_exists (env : Env) (docId : String) : M (Bool × Option SolrDoc) := do
  M.emit (.select docId)
  if env.selectErr then M.throw (.exc "select request failed")
  else do
    let d ← M.getStore docId
    pure (d.isSome, d)

/-- Source: `get_extracted_text(doc_id)` (lines 62-83): `/select` for `attr_content`,
list-join, strip; raises when no document matches.  The source's
`if not text: return "" / return text` is the identity on the stripped text. -/
def get_extracted_text (env : Env) (docId : String) : M String := do
  M.emit (.select docId)
  if env.getTextErr then M.throw (.exc "select request failed")
  else do
    let d ← M.getStore docId
    match d with
    | none => M.throw (.exc ("No document found with ID " ++ docId))
    | some doc => pure (pyStrip (contentToText doc.attr_content))

/-- Source: `extract_text_with_ocr(pdf_path)` (lines 85-127): best-effort OCR; any
failure (missing file, missing deps) is caught and yields `""`; a successful
run returns the accumulated page text stripped. -/
def extract_text_with_ocr (env : Env) (pdfPath : String) : M String := do
  M.emit (.ocrRun pdfPath)
  let c ← M.readFile pdfPath
  match c with
  | none => pure ""
  | some bytes => pure (pyStrip (env.ocr bytes))

/-- Source: `update_solr_with_ocr_text(doc_id, ocr_text)` (lines 176-194): atomic
`{"attr_content": {"set": ...}}` update, `raise_for_status`. -/
def update_solr_with_ocr_text (env : Env) (docId text : String) : M Unit := do
  M.emit (.updateOcr docId text)
  if env.updateOcrErr then M.throw (.exc "update request failed")
  else M.setContentField docId text

/-- Source: `update_solr_with_summary(doc_id, summary)` (lines 196-207): atomic
`{"summary": {"set": ...}}` update, `raise_for_status`. -/
def update_solr_with_summary (env : Env) (docId s : String) : M Unit := do
  M.emit (.updateSummary docId s)
  if env.updateSummaryErr then M.throw (.exc "update request failed")
  else M.setSummaryField docId s

/-- Source: `upload_pdf_to_solr(doc_id, pdf_path)` (lines 54-60): `/update/extract`
with `commit=true`, `raise_for_status`. -/
def upload_pdf_to_solr (env : Env) (docId pdfPath : String) : M Unit := do
  M.emit (.extract docId pdfPath)
  if env.extractErr then M.throw (.exc "extract request failed")
  else M.putStore docId (env.extractedDoc docId pdfPath)

/-- Source: `get_extracted_text_with_ocr_fallback(doc_id, pdf_path)` (lines 129-174). -/
def get_extracted_text_with_ocr_fallback (env : Env) (docId : String)
    (pdfPath : Option String) : M String := do
  M.emit (.select docId)
  if env.fallbackSelectErr then M.throw (.exc "select request failed")
  else do
    let d ← M.getStore docId
    match d with
    | none => M.throw (.exc ("No document found with ID " ++ docId))
    | some doc => do
      let text := pyStrip (contentToText doc.attr_content)
      match pdfPath with
      | some p => do
        let ex ← M.pathExists p
        if text = "" ∧ ex then do
          let t ← extract_text_with_ocr env p
          if t ≠ "" then
            M.tryCatch (update_solr_with_ocr_text env docId t) (fun _ => M.pure ())
          else M.pure ()
          pure t
        else pure text
      | none => pure text

/-- The default financial-services prompt (line 232). -/
def defaultPrompt (text : String) : String :=
  "What financial or banking services are governed by the act in the following document:\n\n" ++
    text ++ ". Provide a detailed list of all the services you can find.\n\nSummary:"

/-- The custom-question prompt (line 230). -/
def customPrompt (q text : String) : String :=
  q ++ "\n\nDocument text:\n\n" ++ text ++ "\n\nSummary:"

/-- Source: `if summarizing_question:` is Python truthiness, so an empty custom
question falls back to the default prompt (lines 229-232). -/
def buildPrompt (text : String) (q : Option String) : String :=
  match q with
  | some qq => if qq = "" then defaultPrompt text else customPrompt qq text
  | none => defaultPrompt text

/-- Source: `"".join([part.text for part in response.candidates[0].content.parts])`. -/
def concatParts (parts : List GemPart) : String :=
  String.join (parts.map (fun p => p.text))

/-- Source: `summarize_document(document_text, summarizing_question)` (lines 209-248):
empty text short-circuits to `None`; the Gemini call and response handling are
wrapped so that any raised error yields `None`; a well-formed response yields
the concatenation of the first candidate's parts. -/
def summarize_document (env : Env) (text : String) (q : Option String) : M (Option String) := do
  if text = "" then pure none
  else do
    let prompt := buildPrompt text q
    M.emit (.llmCall prompt)
    match env.gemini prompt with
    | .error _ => pure none
    | .ok resp =>
      match resp.candidates with
      | [] => pure none
      | cand :: _ =>
        match cand.content with
        | none => pure none
        | some ct =>
          match ct.parts with
          | [] => pure none
          | _ => pure (some (concatParts ct.parts))

/-! ## The endpoint handlers -/

/-- The JSON body of a successful endpoint response.  The Python handlers
return dicts with differing key sets; unused keys keep their defaults. -/
structure Resp where
  status : String
  document_id : String := ""
  filename : String := ""
  current_filename : String := ""
  original_filename : String := ""
  uploaded_filename : String := ""
  summary : String := ""
  has_summary : Bool := false
  message : String := ""
deriving Repr, DecidableEq

/-- Lines 331-337 of `upload_and_process_pdf`: best-effort write-back of
non-empty OCR text (`try/except` that swallows the update failure). -/
def dupOcrWriteBack (env : Env) (docId t : String) : M Unit :=
  if t ≠ "" then
    M.tryCatch (update_solr_with_ocr_text env docId t) (fun _ => M.pure ())
  else M.pure ()

/-- Lines 339-344 of `upload_and_process_pdf`: remove `p` when it is a
`/tmp/ocr_`-prefixed temp copy (`try/except: pass` around `os.remove`). -/
def dupOcrCleanup (p : String) : M Unit :=
  if pyStartsWith p "/tmp/ocr_" then
    M.tryCatch (M.removeFile p) (fun _ => M.pure ())
  else M.pure ()

/-- Lines 327-344 of `upload_and_process_pdf`: OCR the file at `p`,
best-effort write-back of the OCR text, and removal of `p` when it is a
`/tmp/ocr_`-prefixed temp copy. -/
def dupOcrAttempt (env : Env) (docId p : String) : M String := do
  let ex ← M.pathExists p
  if ex then do
    let t ← extract_text_with_ocr env p
    dupOcrWriteBack env docId t
    dupOcrCleanup p
    pure t
  else pure ""

/-- Lines 306-318 of `upload_and_process_pdf`: resolve a candidate path from
the record's `file_uri` field (scheme-stripped), keeping it only when it
exists on disk. -/
def dupLocateUri (d : SolrDoc) : M (Option String) :=
  if fieldTruthy d.file_uri then do
    let p := stripScheme (fileUriToPath ((d.file_uri).getD (.str "")))
    let ex ← M.pathExists p
    pure (if ex then some p else none)
  else M.pure (none : Option String)

/-- Lines 302-344 of `upload_and_process_pdf`: the duplicate-branch OCR
fallback, entered when the stored text is empty: use the `file_uri` path when
it exists on disk, else write the just-uploaded bytes to a fresh
`/tmp/ocr_{hash}_{filename}` temp copy, then run `dupOcrAttempt` on it. -/
def dupOcrBlock (env : Env) (docId fileHash filename : String) (content : List Nat)
    (d : SolrDoc) : M String := do
  let uriPath ← dupLocateUri d
  match uriPath with
  | some p => dupOcrAttempt env docId p
  | none => do
    M.writeFile ("/tmp/ocr_" ++ fileHash ++ "_" ++ filename) content
    dupOcrAttempt env docId ("/tmp/ocr_" ++ fileHash ++ "_" ++ filename)

/-- Lines 346-379 of `upload_and_process_pdf`: summarize the resolved text of
the duplicate and report `summary_generated` / `summary_failed` / `no_content`. -/
def dupReport (env : Env) (docId filename origFn extracted : String) : M Resp := do
  if extracted ≠ "" then do
    let summary ← summarize_document env extracted none
    match summary with
    | some s =>
      if s ≠ "" then do
        update_solr_with_summary env docId s
        pure { status := "summary_generated", document_id := docId, current_filename := filename,
               original_filename := origFn, summary := s,
               message := "Document already exists (duplicate of " ++ origFn ++
                 ") - summary generated successfully" }
      else
        pure { status := "summary_failed", document_id := docId, current_filename := filename,
               original_filename := origFn, summary := "",
               message := "Document already exists (duplicate of " ++ origFn ++
                 ") but summary generation failed" }
    | none =>
      pure { status := "summary_failed", document_id := docId, current_filename := filename,
             original_filename := origFn, summary := "",
             message := "Document already exists (duplicate of " ++ origFn ++
               ") but summary generation failed" }
  else
    pure { status := "no_content", document_id := docId, current_filename := filename,
           original_filename := origFn, summary := "",
           message := "Document already exists (duplicate of " ++ origFn ++
             ") but no text content found" }

/-- Lines 302-344 of `upload_and_process_pdf`, as a step: enter the OCR
fallback only when the stored text is empty. -/
def dupResolve (env : Env) (docId fileHash filename : String) (content : List Nat)
    (d : SolrDoc) (extracted : String) : M String :=
  if extracted = "" then dupOcrBlock env docId fileHash filename content d
  else M.pure extracted

/-- Lines 296-388 of `upload_and_process_pdf`: the duplicate-without-summary
branch (the body of its `try`). -/
def dupNoSummaryBody (env : Env) (docId fileHash filename : String) (content : List Nat)
    (d : SolrDoc) (origFn : String) : M Resp := do
  let e1 ← get_extracted_text env docId
  let e2 ← dupResolve env docId fileHash filename content d e1
  dupReport env docId filename origFn e2

/-- Lines 393-427 of `upload_and_process_pdf`: the fresh-upload `try` body. -/
def freshTryBody (env : Env) (docId tempPath filename : String) (content : List Nat) : M Resp := do
  M.writeFile tempPath content
  upload_pdf_to_solr env docId tempPath
  let text ← get_extracted_text_with_ocr_fallback env docId (some tempPath)
  if text = "" then
    M.throw (.httpExc 400 "No text could be extracted from the PDF using either Solr or OCR")
  else do
    let summary ← summarize_document env text none
    match summary with
    | some s =>
      if s ≠ "" then do
        update_solr_with_summary env docId s
        pure { status := "success", document_id := docId, filename := filename, summary := s,
               message := "PDF uploaded and processed successfully" }
      else M.throw (.httpExc 500 "Failed to generate summary")
    | none => M.throw (.httpExc 500 "Failed to generate summary")

/-- Source: `if os.path.exists(temp_file_path): os.remove(temp_file_path)`
(lines 430-432 and 600-602). -/
def tempCleanup (tempPath : String) : M Unit := do
  let ex ← M.pathExists tempPath
  if ex then M.removeFile tempPath else M.pure ()

/-- Lines 390-432: fresh-upload path with `except` mapping and `finally` cleanup. -/
def freshUploadBody (env : Env) (docId fileHash filename : String) (content : List Nat) : M Resp :=
  let tempPath := "/tmp/" ++ fileHash ++ "_" ++ filename
  M.finallyDo
    (M.tryCatch (freshTryBody env docId tempPath filename content)
      (fun e =>
        match e with
        | .httpExc c dtl => M.throw (.httpExc c dtl)
        | .exc m => M.throw (.httpExc 500 ("Error processing PDF: " ++ m))))
    (tempCleanup tempPath)

/-- Lines 380-388 of `upload_and_process_pdf`: the `except Exception` handler
of the duplicate-without-summary branch. -/
def dupErrResp (docId filename origFn : String) (e : PyErr) : Resp :=
  { status := "error", document_id := docId, current_filename := filename,
    original_filename := origFn, summary := "",
    message := "Document already exists (duplicate of " ++ origFn ++
      ") but error occurred while generating summary: " ++ e.toMessage }

/-- Source: `POST /upload-pdf/` — `upload_and_process_pdf` (lines 255-432). -/
def upload_and_process_pdf (env : Env) (filename : String) (content : List Nat) : M Resp := do
  if ¬ pyEndsWith filename ".pdf" then
    M.throw (.httpExc 400 "Only PDF files are allowed")
  else do
    let fileHash := calculate_file_hash content
    let docId := "doc_" ++ fileHash
    let r ← check_document_exists env docId
    match r.2 with
    | some d =>
      let origFn := origFilename d filename
      let esum := existingSummary d
      if esum ≠ "" ∧ pyStrip esum ≠ "" then
        pure { status := "already_exists", document_id := docId, current_filename := filename,
               original_filename := origFn, summary := esum,
               message := "Document already exists in the system (duplicate of " ++ origFn ++ ")" }
      else
        M.tryCatch (dupNoSummaryBody env docId fileHash filename content d origFn)
          (fun e => M.pure (dupErrResp docId filename origFn e))
    | none => freshUploadBody env docId fileHash filename content

/-- Read the whole filesystem map (for the pure inline locator block). -/
def M.getFilesMap : M (String → Option (List Nat)) := fun w => (.ok w.files, w)

@[simp] theorem M.bind_getFilesMap (f : (String → Option (List Nat)) → M β) (w : World) :
    M.bind M.getFilesMap f w = f w.files w := rfl

/-- Lines 480-486: the ordered conventional candidate paths (`doc_id.replace`
replaces every occurrence, as `str.replace` does). -/
def candidatePaths (docId origFn : String) : List String :=
  ["/tmp/" ++ (pyReplace docId "doc_" "") ++ "_" ++ origFn,
   "/tmp/" ++ origFn,
   "/tmp/" ++ docId ++ "_" ++ origFn,
   "/uploads/" ++ origFn,
   "/uploads/" ++ docId ++ "_" ++ origFn]

/-- Lines 464-491 of `update_document_summary`: locate the original PDF —
the scheme-stripped `file_uri` path when that path exists, else the first
existing conventional candidate, else `None`. -/
def locatePdfPath (files : String → Option (List Nat)) (d : SolrDoc) (docId origFn : String) :
    Option String :=
  let uriPath :=
    if fieldTruthy d.file_uri then
      let p := stripScheme (fileUriToPath ((d.file_uri).getD (.str "")))
      if (files p).isSome then some p else none
    else none
  match uriPath with
  | some p => some p
  | none => (candidatePaths docId origFn).find? (fun p => (files p).isSome)

/-- Lines 460-508 of `update_document_summary`: locate the original file and
OCR it, with best-effort write-back; 400 when no file or no OCR text. -/
def updOcrLocate (env : Env) (docId : String) (d : SolrDoc) (origFn : String) : M String := do
  let files ← M.getFilesMap
  match locatePdfPath files d docId origFn with
  | some p => do
    let t ← extract_text_with_ocr env p
    if t ≠ "" then do
      M.tryCatch (update_solr_with_ocr_text env docId t) (fun _ => M.pure ())
      pure t
    else
      M.throw (.httpExc 400 ("No text content could be extracted from document ID " ++
        docId ++ " using OCR"))
  | none =>
    M.throw (.httpExc 400 ("No text content found for document ID " ++ docId ++
      " and original PDF file not available for OCR"))

/-- Lines 460-508 of `update_document_summary`, as a step: enter the
locate-and-OCR fallback only when the stored text is empty or whitespace. -/
def updResolve (env : Env) (docId : String) (d : SolrDoc) (origFn text : String) : M String :=
  if text = "" ∨ pyStrip text = "" then updOcrLocate env docId d origFn
  else M.pure text

/-- Lines 447-529 of `update_document_summary`: the `try` body. -/
def updateSummaryBody (env : Env) (docId : String) (q : Option String) : M Resp := do
  let r ← check_document_exists env docId
  match r.2 with
  | none => M.throw (.httpExc 404 ("Document with ID " ++ docId ++ " not found"))
  | some d => do
    let origFn := origFilename d "unknown"
    let t0 ← get_extracted_text env docId
    let text ← updResolve env docId d origFn t0
    if text = "" ∨ pyStrip text = "" then
      M.throw (.httpExc 400 ("No text content found for document ID " ++ docId))
    else do
      let sOpt ← summarize_document env text q
      match sOpt with
      | some s =>
        if s ≠ "" then do
          update_solr_with_summary env docId s
          pure { status := "summary_updated", document_id := docId, filename := origFn,
                 summary := s,
                 message := "Summary updated successfully for document " ++ origFn }
        else M.throw (.httpExc 500 "Failed to generate summary")
      | none => M.throw (.httpExc 500 "Failed to generate summary")

/-- Source: `GET /update-summary/{doc_id}` — `update_document_summary` (lines 434-534). -/
def update_document_summary (env : Env) (docId : String) (q : Option String) : M Resp :=
  M.tryCatch (updateSummaryBody env docId q)
    (fun e =>
      match e with
      | .httpExc c dtl => M.throw (.httpExc c dtl)
      | .exc m =>
        M.throw (.httpExc 500 ("Error updating summary for document " ++ docId ++ ": " ++ m)))

/-- Lines 567-597 of `update_document_summary_with_file`: the inner `try` body. -/
def updateWithFileInner (env : Env) (docId origFn filename : String) (content : List Nat)
    (tempPath : String) : M Resp := do
  M.writeFile tempPath content
  let t ← extract_text_with_ocr env tempPath
  if t = "" ∨ pyStrip t = "" then
    M.throw (.httpExc 400 "No text could be extracted from the PDF using OCR")
  else do
    update_solr_with_ocr_text env docId t
    let sOpt ← summarize_document env t none
    match sOpt with
    | some s =>
      if s ≠ "" then do
        update_solr_with_summary env docId s
        pure { status := "summary_updated_with_ocr", document_id := docId,
               original_filename := origFn, uploaded_filename := filename, summary := s,
               message := "Summary updated successfully for document " ++ origFn ++
                 " using OCR from " ++ filename }
      else M.throw (.httpExc 500 "Failed to generate summary")
    | none => M.throw (.httpExc 500 "Failed to generate summary")

/-- Lines 549-602 of `update_document_summary_with_file`: the outer `try` body. -/
def updateWithFileBody (env : Env) (docId filename : String) (content : List Nat) : M Resp := do
  if ¬ pyEndsWith filename ".pdf" then
    M.throw (.httpExc 400 "Only PDF files are allowed")
  else do
    let r ← check_document_exists env docId
    match r.2 with
    | none => M.throw (.httpExc 404 ("Document with ID " ++ docId ++ " not found"))
    | some d => do
      let origFn := origFilename d "unknown"
      let tempPath := "/tmp/ocr_" ++ docId ++ "_" ++ filename
      M.finallyDo (updateWithFileInner env docId origFn filename content tempPath)
        (tempCleanup tempPath)

/-- Source: `POST /update-summary-with-file/{doc_id}` — `update_document_summary_with_file`
(lines 536-607). -/
def update_document_summary_with_file (env : Env) (docId filename : String)
    (content : List Nat) : M Resp :=
  M.tryCatch (updateWithFileBody env docId filename content)
    (fun e =>
      match e with
      | .httpExc c dtl => M.throw (.httpExc c dtl)
      | .exc m =>
        M.throw (.httpExc 500 ("Error updating summary with OCR for document " ++ docId ++
          ": " ++ m)))

/-- Source: `GET /document/{doc_id}` — `get_document_info` (lines 609-643). -/
def get_document_info (env : Env) (docId : String) : M Resp :=
  M.tryCatch
    (do
      let r ← check_document_exists env docId
      match r.2 with
      | none => M.throw (.httpExc 404 ("Document with ID " ++ docId ++ " not found"))
      | some d =>
        let origFn := origFilename d "unknown"
        let esum := existingSummary d
        pure { status := "found", document_id := docId, filename := origFn, summary := esum,
               has_summary := esum != "" && pyStrip esum != "",
               message := "Document " ++ origFn ++ " found" })
    (fun e =>
      match e with
      | .httpExc c dtl => M.throw (.httpExc c dtl)
      | .exc m => M.throw (.httpExc 500 ("Error retrieving document " ++ docId ++ ": " ++ m)))

/-! ## Predicates for reasoning about runs

`Steps ok x`: running `x` only appends effects satisfying `ok` to the trace.
`FilesEq x`: running `x` leaves the filesystem unchanged.
`NeverErr x`: `x` never raises.
`RespOkIn S x`: any normally returned response has its status in `S`.
`CleansTemps x`: any temp file whose write `x` itself traced is gone from the
filesystem when `x` finishes (however it exits). -/

def Steps (ok : Effect → Prop) (x : M α) : Prop :=
  ∀ w, ∃ t, (x w).2.trace = w.trace ++ t ∧ ∀ e ∈ t, ok e

def FilesEq (x : M α) : Prop := ∀ w, (x w).2.files = w.files

def NeverErr (x : M α) : Prop := ∀ w, ∃ a, (x w).1 = .ok a

def RespOkIn (S : List String) (x : M Resp) : Prop :=
  ∀ w r, (x w).1 = .ok r → r.status ∈ S

def CleansTemps (x : M α) : Prop :=
  ∀ w p, Effect.writeTemp p ∈ (x w).2.trace →
    Effect.writeTemp p ∈ w.trace ∨ (x w).2.files p = none

/-- Effects other than `extract`. -/
def nonExtract : Effect → Prop := fun e =>
  match e with
  | .extract _ _ => False
  | _ => True

/-- Effects other than `writeTemp`. -/
def nonWrite : Effect → Prop := fun e =>
  match e with
  | .writeTemp _ => False
  | _ => True

/-- Effects whose only temp-file write is at path `p`. -/
def writesOnly (p : String) : Effect → Prop := fun e =>
  match e with
  | .writeTemp q => q = p
  | _ => True

theorem stepsMono {ok1 ok2 : Effect → Prop} (h : ∀ e, ok1 e → ok2 e)
    {x : M α} (hx : Steps ok1 x) : Steps ok2 x := by
  intro w
  obtain ⟨t, ht, hall⟩ := hx w
  exact ⟨t, ht, fun e he => h e (hall e he)⟩

theorem stepsPure (ok : Effect → Prop) (a : α) : Steps ok (M.pure a) := by
  intro w
  exact ⟨[], by simp [M.pure], by simp⟩

theorem stepsThrow (ok : Effect → Prop) (e : PyErr) : Steps ok (M.throw e : M α) := by
  intro w
  exact ⟨[], by simp [M.throw], by simp⟩

theorem stepsEmit {ok : Effect → Prop} (e : Effect) (he : ok e) : Steps ok (M.emit e) := by
  intro w
  exact ⟨[e], rfl, by simpa⟩

/-- Any trace-preserving primitive satisfies every `Steps`. -/
theorem stepsOfTraceEq {x : M α} (h : ∀ w, (x w).2.trace = w.trace)
    (ok : Effect → Prop) : Steps ok x := by
  intro w
  exact ⟨[], by simp [h w], by simp⟩

theorem stepsGetStore (ok : Effect → Prop) (i : String) : Steps ok (M.getStore i) :=
  stepsOfTraceEq (fun _ => rfl) ok

theorem stepsPutStore (ok : Effect → Prop) (i : String) (d : SolrDoc) :
    Steps ok (M.putStore i d) :=
  stepsOfTraceEq (fun _ => rfl) ok

theorem stepsSetContentField (ok : Effect → Prop) (i t : String) :
    Steps ok (M.setContentField i t) :=
  stepsOfTraceEq (fun _ => rfl) ok

theorem stepsSetSummaryField (ok : Effect → Prop) (i s : String) :
    Steps ok (M.setSummaryField i s) :=
  stepsOfTraceEq (fun _ => rfl) ok

theorem stepsPathExists (ok : Effect → Prop) (p : String) : Steps ok (M.pathExists p) :=
  stepsOfTraceEq (fun _ => rfl) ok

theorem stepsReadFile (ok : Effect → Prop) (p : String) : Steps ok (M.readFile p) :=
  stepsOfTraceEq (fun _ => rfl) ok

theorem stepsGetFilesMap (ok : Effect → Prop) : Steps ok M.getFilesMap :=
  stepsOfTraceEq (fun _ => rfl) ok

theorem stepsWriteFile {ok : Effect → Prop} (p : String) (c : List Nat)
    (hp : ok (.writeTemp p)) : Steps ok (M.writeFile p c) := by
  intro w
  exact ⟨[.writeTemp p], rfl, by simpa⟩

theorem stepsRemoveFile {ok : Effect → Prop} (p : String)
    (hp : ok (.removeTemp p)) : Steps ok (M.removeFile p) := by
  intro w
  exact ⟨[.removeTemp p], rfl, by simpa⟩

theorem stepsBind {ok : Effect → Prop} {x : M α} {f : α → M β}
    (hx : Steps ok x) (hf : ∀ a, Steps ok (f a)) : Steps ok (M.bind x f) := by
  intro w
  obtain ⟨t1, ht1, hall1⟩ := hx w
  unfold M.bind
  cases hxw : x w with
  | mk r w2 =>
    rw [hxw] at ht1
    cases r with
    | ok a =>
      obtain ⟨t2, ht2, hall2⟩ := hf a w2
      refine ⟨t1 ++ t2, ?_, ?_⟩
      · rw [ht2, ht1, List.append_assoc]
      · intro e he
        rcases List.mem_append.1 he with h1 | h2
        · exact hall1 e h1
        · exact hall2 e h2
    | error er => exact ⟨t1, ht1, hall1⟩

theorem stepsTryCatch {ok : Effect → Prop} {x : M α} {h : PyErr → M α}
    (hx : Steps ok x) (hh : ∀ e, Steps ok (h e)) : Steps ok (M.tryCatch x h) := by
  intro w
  obtain ⟨t1, ht1, hall1⟩ := hx w
  unfold M.tryCatch
  cases hxw : x w with
  | mk r w2 =>
    rw [hxw] at ht1
    cases r with
    | ok a => exact ⟨t1, ht1, hall1⟩
    | error er =>
      obtain ⟨t2, ht2, hall2⟩ := hh er w2
      refine ⟨t1 ++ t2, ?_, ?_⟩
      · rw [ht2, ht1, List.append_assoc]
      · intro e he
        rcases List.mem_append.1 he with h1 | h2
        · exact hall1 e h1
        · exact hall2 e h2

theorem stepsFinallyDo {ok : Effect → Prop} {x : M α} {fin : M Unit}
    (hx : Steps ok x) (hfin : Steps ok fin) : Steps ok (M.finallyDo x fin) := by
  intro w
  obtain ⟨t1, ht1, hall1⟩ := hx w
  obtain ⟨t2, ht2, hall2⟩ := hfin (x w).2
  refine ⟨t1 ++ t2, ?_, ?_⟩
  · show ((fin (x w).2).2).trace = _
    rw [ht2, ht1, List.append_assoc]
  · intro e he
    rcases List.mem_append.1 he with h1 | h2
    · exact hall1 e h1
    · exact hall2 e h2

theorem stepsIte (ok : Effect → Prop) (c : Prop) [Decidable c] {x y : M α}
    (hx : Steps ok x) (hy : Steps ok y) : Steps ok (if c then x else y) := by
  by_cases h : c <;> simp [h, hx, hy]

theorem filesEqPure (a : α) : FilesEq (M.pure a) := fun _ => rfl

theorem filesEqThrow (e : PyErr) : FilesEq (M.throw e : M α) := fun _ => rfl

theorem filesEqEmit (e : Effect) : FilesEq (M.emit e) := fun _ => rfl

theorem filesEqGetStore (i : String) : FilesEq (M.getStore i) := fun _ => rfl

theorem filesEqPutStore (i : String) (d : SolrDoc) : FilesEq (M.putStore i d) := fun _ => rfl

theorem filesEqSetContentField (i t : String) : FilesEq (M.setContentField i t) := fun _ => rfl

theorem filesEqSetSummaryField (i s : String) : FilesEq (M.setSummaryField i s) := fun _ => rfl

theorem filesEqPathExists (p : String) : FilesEq (M.pathExists p) := fun _ => rfl

theorem filesEqReadFile (p : String) : FilesEq (M.readFile p) := fun _ => rfl

theorem filesEqGetFilesMap : FilesEq M.getFilesMap := fun _ => rfl

theorem filesEqBind {x : M α} {f : α → M β} (hx : FilesEq x) (hf : ∀ a, FilesEq (f a)) :
    FilesEq (M.bind x f) := by
  intro w
  unfold M.bind
  cases hxw : x w with
  | mk r w2 =>
    have h2 : w2.files = w.files := by
      have := hx w
      rw [hxw] at this
      exact this
    cases r with
    | ok a => rw [hf a w2, h2]
    | error er => exact h2

theorem filesEqTryCatch {x : M α} {h : PyErr → M α} (hx : FilesEq x)
    (hh : ∀ e, FilesEq (h e)) : FilesEq (M.tryCatch x h) := by
  intro w
  unfold M.tryCatch
  cases hxw : x w with
  | mk r w2 =>
    have h2 : w2.files = w.files := by
      have := hx w
      rw [hxw] at this
      exact this
    cases r with
    | ok a => exact h2
    | error er => rw [hh er w2, h2]

theorem filesEqIte (c : Prop) [Decidable c] {x y : M α}
    (hx : FilesEq x) (hy : FilesEq y) : FilesEq (if c then x else y) := by
  by_cases h : c <;> simp [h, hx, hy]

theorem filesEqFinallyDo {x : M α} {fin : M Unit} (hx : FilesEq x) (hfin : FilesEq fin) :
    FilesEq (M.finallyDo x fin) := by
  intro w
  show ((fin (x w).2).2).files = w.files
  rw [hfin (x w).2, hx w]

theorem neverErrPure (a : α) : NeverErr (M.pure a) := fun _ => ⟨a, rfl⟩

theorem neverErrTryCatch {x : M α} {h : PyErr → M α} (hh : ∀ e, NeverErr (h e)) :
    NeverErr (M.tryCatch x h) := by
  intro w
  unfold M.tryCatch
  cases hxw : x w with
  | mk r w2 =>
    cases r with
    | ok a => exact ⟨a, rfl⟩
    | error er => exact hh er w2

theorem respOkInMono {S1 S2 : List String} (h : ∀ s ∈ S1, s ∈ S2) {x : M Resp}
    (hx : RespOkIn S1 x) : RespOkIn S2 x := fun w r hr => h _ (hx w r hr)

theorem respOkInPure {S : List String} (r : Resp) (h : r.status ∈ S) :
    RespOkIn S (M.pure r) := by
  intro w r2 hr
  simp only [M.pure, Except.ok.injEq] at hr
  rw [← hr]
  exact h

theorem respOkInThrow {S : List String} (e : PyErr) : RespOkIn S (M.throw e) := by
  intro w r hr
  simp [M.throw] at hr

theorem respOkInBind {S : List String} {x : M α} {f : α → M Resp}
    (hf : ∀ a, RespOkIn S (f a)) : RespOkIn S (M.bind x f) := by
  intro w r hr
  unfold M.bind at hr
  cases hxw : x w with
  | mk r2 w2 =>
    rw [hxw] at hr
    cases r2 with
    | ok a => exact hf a w2 r hr
    | error er => simp at hr

theorem respOkInTryCatch {S : List String} {x : M Resp} {h : PyErr → M Resp}
    (hx : RespOkIn S x) (hh : ∀ e, RespOkIn S (h e)) : RespOkIn S (M.tryCatch x h) := by
  intro w r hr
  unfold M.tryCatch at hr
  cases hxw : x w with
  | mk r2 w2 =>
    rw [hxw] at hr
    cases r2 with
    | ok a =>
      have : (x w).1 = .ok r := by rw [hxw]; exact hr
      exact hx w r this
    | error er => exact hh er w2 r hr

theorem respOkInIte {S : List String} (c : Prop) [Decidable c] {x y : M Resp}
    (hx : RespOkIn S x) (hy : RespOkIn S y) : RespOkIn S (if c then x else y) := by
  by_cases h : c <;> simp [h, hx, hy]

theorem cleansTempsOfNonWrite {x : M α} (hx : Steps nonWrite x) : CleansTemps x := by
  intro w p hp
  obtain ⟨t, ht, hall⟩ := hx w
  rw [ht] at hp
  rcases List.mem_append.1 hp with h1 | h2
  · exact .inl h1
  · exact absurd (hall _ h2) (by simp [nonWrite])

theorem cleansTempsBindLeft {x : M α} {f : α → M β} (hx : Steps nonWrite x)
    (hf : ∀ a, CleansTemps (f a)) : CleansTemps (M.bind x f) := by
  intro w p hp
  obtain ⟨t1, ht1, hall1⟩ := hx w
  unfold M.bind at hp ⊢
  cases hxw : x w with
  | mk r w2 =>
    rw [hxw] at hp ht1
    cases r with
    | ok a =>
      rcases hf a w2 p hp with h | h
      · rw [ht1] at h
        rcases List.mem_append.1 h with h1 | h2
        · exact .inl h1
        · exact absurd (hall1 _ h2) (by simp [nonWrite])
      · exact .inr h
    | error er =>
      rw [ht1] at hp
      rcases List.mem_append.1 hp with h1 | h2
      · exact .inl h1
      · exact absurd (hall1 _ h2) (by simp [nonWrite])

theorem cleansTempsBindRight {x : M α} {f : α → M β} (hx : CleansTemps x)
    (hf : ∀ a, Steps nonWrite (f a) ∧ FilesEq (f a)) : CleansTemps (M.bind x f) := by
  intro w p hp
  have hxc := hx w p
  unfold M.bind at hp ⊢
  cases hxw : x w with
  | mk r w2 =>
    rw [hxw] at hp hxc
    cases r with
    | ok a =>
      obtain ⟨hsteps, hfeq⟩ := hf a
      obtain ⟨t2, ht2, hall2⟩ := hsteps w2
      rw [ht2] at hp
      rcases List.mem_append.1 hp with h1 | h2
      · rcases hxc h1 with h | h
        · exact .inl h
        · right
          rw [hfeq w2]
          exact h
      · exact absurd (hall2 _ h2) (by simp [nonWrite])
    | error er => exact hxc hp

theorem cleansTempsTryCatch {x : M α} {h : PyErr → M α} (hx : CleansTemps x)
    (hh : ∀ e, Steps nonWrite (h e) ∧ FilesEq (h e)) : CleansTemps (M.tryCatch x h) := by
  intro w p hp
  have hxc := hx w p
  unfold M.tryCatch at hp ⊢
  cases hxw : x w with
  | mk r w2 =>
    rw [hxw] at hp hxc
    cases r with
    | ok a => exact hxc hp
    | error er =>
      obtain ⟨hsteps, hfeq⟩ := hh er
      obtain ⟨t2, ht2, hall2⟩ := hsteps w2
      rw [ht2] at hp
      rcases List.mem_append.1 hp with h1 | h2
      · rcases hxc h1 with h2 | h2
        · exact .inl h2
        · right
          rw [hfeq w2]
          exact h2
      · exact absurd (hall2 _ h2) (by simp [nonWrite])

theorem cleansTempsIte (c : Prop) [Decidable c] {x y : M α}
    (hx : CleansTemps x) (hy : CleansTemps y) : CleansTemps (if c then x else y) := by
  by_cases h : c <;> simp [h, hx, hy]

/-- Running `tempCleanup p` never raises, leaves no file at `p`, and appends
only non-write effects. -/
theorem tempCleanup_run (p : String) (w : World) :
    (tempCleanup p w).1 = .ok () ∧ ((tempCleanup p w).2).files p = none ∧
      ∃ t, ((tempCleanup p w).2).trace = w.trace ++ t ∧ ∀ e ∈ t, nonWrite e := by
  unfold tempCleanup
  simp only [M.bind_eq, M.pure_eq, M.bind_pathExists]
  by_cases hf : (w.files p).isSome = true
  · rw [if_pos hf]
    exact ⟨rfl, by simp [M.removeFile], [.removeTemp p], rfl, by simp [nonWrite]⟩
  · rw [if_neg hf]
    exact ⟨rfl, Option.not_isSome_iff_eq_none.1 hf, [], by simp [M.pure], by simp⟩

/-- A body whose only temp write is `p`, wrapped in `finally: cleanup p`,
cleans its temps. -/
theorem cleansTempsFinallyCleanup {x : M α} {p : String}
    (hx : Steps (writesOnly p) x) : CleansTemps (M.finallyDo x (tempCleanup p)) := by
  intro w q hq
  obtain ⟨-, hnone, t2, ht2, hall2⟩ := tempCleanup_run p (x w).2
  have hq2 : Effect.writeTemp q ∈ ((tempCleanup p (x w).2).2).trace := hq
  rw [ht2] at hq2
  rcases List.mem_append.1 hq2 with h1 | h2
  · obtain ⟨t1, ht1, hall1⟩ := hx w
    rw [ht1] at h1
    rcases List.mem_append.1 h1 with h1a | h1b
    · exact .inl h1a
    · right
      have hqp : q = p := by simpa [writesOnly] using hall1 _ h1b
      rw [hqp]
      exact hnone
  · exact absurd (hall2 _ h2) (by simp [nonWrite])

/-! ## Per-function effect lemmas -/

theorem steps_check (ok : Effect → Prop) (env : Env) (docId : String)
    (h : ok (.select docId)) : Steps ok (check_document_exists env docId) := by
  unfold check_document_exists
  simp only [M.bind_eq, M.pure_eq]
  refine stepsBind (stepsEmit _ h) ?_
  intro _
  refine stepsIte _ _ (stepsThrow _ _) ?_
  exact stepsBind (stepsGetStore _ _) (fun d => stepsPure _ _)

theorem filesEq_check (env : Env) (docId : String) :
    FilesEq (check_document_exists env docId) := by
  unfold check_document_exists
  simp only [M.bind_eq, M.pure_eq]
  refine filesEqBind (filesEqEmit _) ?_
  intro _
  refine filesEqIte _ (filesEqThrow _) ?_
  exact filesEqBind (filesEqGetStore _) (fun d => filesEqPure _)

theorem steps_get_extracted_text (ok : Effect → Prop) (env : Env) (docId : String)
    (h : ok (.select docId)) : Steps ok (get_extracted_text env docId) := by
  unfold get_extracted_text
  simp only [M.bind_eq, M.pure_eq]
  refine stepsBind (stepsEmit _ h) ?_
  intro _
  refine stepsIte _ _ (stepsThrow _ _) ?_
  refine stepsBind (stepsGetStore _ _) ?_
  intro d
  cases d with
  | none => exact stepsThrow _ _
  | some doc => exact stepsPure _ _

theorem filesEq_get_extracted_text (env : Env) (docId : String) :
    FilesEq (get_extracted_text env docId) := by
  unfold get_extracted_text
  simp only [M.bind_eq, M.pure_eq]
  refine filesEqBind (filesEqEmit _) ?_
  intro _
  refine filesEqIte _ (filesEqThrow _) ?_
  refine filesEqBind (filesEqGetStore _) ?_
  intro d
  cases d with
  | none => exact filesEqThrow _
  | some doc => exact filesEqPure _

theorem steps_extract_ocr (ok : Effect → Prop) (env : Env) (p : String)
    (h : ok (.ocrRun p)) : Steps ok (extract_text_with_ocr env p) := by
  unfold extract_text_with_ocr
  simp only [M.bind_eq, M.pure_eq]
  refine stepsBind (stepsEmit _ h) ?_
  intro _
  refine stepsBind (stepsReadFile _ _) ?_
  intro c
  cases c with
  | none => exact stepsPure _ _
  | some bytes => exact stepsPure _ _

/-- The OCR wrapper never raises and only appends `ocrRun p` to the trace. -/
theorem extract_ocr_run (env : Env) (p : String) (w : World) :
    extract_text_with_ocr env p w =
      (.ok (match w.files p with | none => "" | some bytes => pyStrip (env.ocr bytes)),
       { w with trace := w.trace ++ [.ocrRun p] }) := by
  unfold extract_text_with_ocr
  simp only [M.bind_eq, M.pure_eq, M.bind_emit, M.bind_readFile]
  cases w.files p <;> rfl

theorem filesEq_extract_ocr (env : Env) (p : String) :
    FilesEq (extract_text_with_ocr env p) := by
  intro w
  rw [extract_ocr_run]

theorem neverErr_extract_ocr (env : Env) (p : String) :
    NeverErr (extract_text_with_ocr env p) := by
  intro w
  rw [extract_ocr_run]
  exact ⟨_, rfl⟩

theorem steps_update_ocr (ok : Effect → Prop) (env : Env) (docId text : String)
    (h : ok (.updateOcr docId text)) : Steps ok (update_solr_with_ocr_text env docId text) := by
  unfold update_solr_with_ocr_text
  simp only [M.bind_eq, M.pure_eq]
  refine stepsBind (stepsEmit _ h) ?_
  intro _
  exact stepsIte _ _ (stepsThrow _ _) (stepsSetContentField _ _ _)

theorem filesEq_update_ocr (env : Env) (docId text : String) :
    FilesEq (update_solr_with_ocr_text env docId text) := by
  unfold update_solr_with_ocr_text
  simp only [M.bind_eq, M.pure_eq]
  refine filesEqBind (filesEqEmit _) ?_
  intro _
  exact filesEqIte _ (filesEqThrow _) (filesEqSetContentField _ _)

theorem steps_update_summary (ok : Effect → Prop) (env : Env) (docId s : String)
    (h : ok (.updateSummary docId s)) : Steps ok (update_solr_with_summary env docId s) := by
  unfold update_solr_with_summary
  simp only [M.bind_eq, M.pure_eq]
  refine stepsBind (stepsEmit _ h) ?_
  intro _
  exact stepsIte _ _ (stepsThrow _ _) (stepsSetSummaryField _ _ _)

theorem filesEq_update_summary (env : Env) (docId s : String) :
    FilesEq (update_solr_with_summary env docId s) := by
  unfold update_solr_with_summary
  simp only [M.bind_eq, M.pure_eq]
  refine filesEqBind (filesEqEmit _) ?_
  intro _
  exact filesEqIte _ (filesEqThrow _) (filesEqSetSummaryField _ _)

theorem steps_upload_pdf_to_solr (ok : Effect → Prop) (env : Env) (docId path : String)
    (h : ok (.extract docId path)) : Steps ok (upload_pdf_to_solr env docId path) := by
  unfold upload_pdf_to_solr
  simp only [M.bind_eq, M.pure_eq]
  refine stepsBind (stepsEmit _ h) ?_
  intro _
  exact stepsIte _ _ (stepsThrow _ _) (stepsPutStore _ _ _)

theorem filesEq_upload_pdf_to_solr (env : Env) (docId path : String) :
    FilesEq (upload_pdf_to_solr env docId path) := by
  unfold upload_pdf_to_solr
  simp only [M.bind_eq, M.pure_eq]
  refine filesEqBind (filesEqEmit _) ?_
  intro _
  exact filesEqIte _ (filesEqThrow _) (filesEqPutStore _ _)

theorem steps_fallback (ok : Effect → Prop) (env : Env) (docId : String)
    (pdfPath : Option String) (h1 : ok (.select docId)) (h2 : ∀ p, ok (.ocrRun p))
    (h3 : ∀ t, ok (.updateOcr docId t)) :
    Steps ok (get_extracted_text_with_ocr_fallback env docId pdfPath) := by
  unfold get_extracted_text_with_ocr_fallback
  simp only [M.bind_eq, M.pure_eq]
  refine stepsBind (stepsEmit _ h1) ?_
  intro _
  refine stepsIte _ _ (stepsThrow _ _) ?_
  refine stepsBind (stepsGetStore _ _) ?_
  intro d
  cases d with
  | none => exact stepsThrow _ _
  | some doc =>
    cases pdfPath with
    | none => exact stepsPure _ _
    | some p =>
      refine stepsBind (stepsPathExists _ _) ?_
      intro ex
      refine stepsIte _ _ ?_ (stepsPure _ _)
      refine stepsBind (steps_extract_ocr _ _ _ (h2 p)) ?_
      intro t
      refine stepsIte _ _ ?_ (stepsBind (stepsPure _ _) (fun _ => stepsPure _ _))
      exact stepsBind
        (stepsTryCatch (steps_update_ocr _ _ _ _ (h3 t)) (fun _ => stepsPure _ _))
        (fun _ => stepsPure _ _)

theorem steps_summarize (ok : Effect → Prop) (env : Env) (text : String) (q : Option String)
    (h : ∀ pr, ok (.llmCall pr)) : Steps ok (summarize_document env text q) := by
  unfold summarize_document
  simp only [M.bind_eq, M.pure_eq]
  refine stepsIte _ _ (stepsPure _ _) ?_
  refine stepsBind (stepsEmit _ (h _)) ?_
  intro _
  rcases env.gemini (buildPrompt text q) with e | resp
  · exact stepsPure _ _
  · rcases resp with ⟨cands⟩
    cases cands with
    | nil => exact stepsPure _ _
    | cons cand rest =>
      rcases cand with ⟨ct⟩
      cases ct with
      | none => exact stepsPure _ _
      | some c =>
        rcases c with ⟨parts⟩
        cases parts with
        | nil => exact stepsPure _ _
        | cons ph pt => exact stepsPure _ _

theorem filesEq_summarize (env : Env) (text : String) (q : Option String) :
    FilesEq (summarize_document env text q) := by
  unfold summarize_document
  simp only [M.bind_eq, M.pure_eq]
  refine filesEqIte _ (filesEqPure _) ?_
  refine filesEqBind (filesEqEmit _) ?_
  intro _
  rcases env.gemini (buildPrompt text q) with e | resp
  · exact filesEqPure _
  · rcases resp with ⟨cands⟩
    cases cands with
    | nil => exact filesEqPure _
    | cons cand rest =>
      rcases cand with ⟨ct⟩
      cases ct with
      | none => exact filesEqPure _
      | some c =>
        rcases c with ⟨parts⟩
        cases parts with
        | nil => exact filesEqPure _
        | cons ph pt => exact filesEqPure _

theorem neverErr_summarize (env : Env) (text : String) (q : Option String) :
    NeverErr (summarize_document env text q) := by
  unfold summarize_document
  intro w
  simp only [M.bind_eq, M.pure_eq]
  by_cases he : text = ""
  · rw [if_pos he]
    exact ⟨none, rfl⟩
  · rw [if_neg he]
    simp only [M.bind_emit]
    rcases env.gemini (buildPrompt text q) with e | resp
    · exact ⟨none, rfl⟩
    · rcases resp with ⟨cands⟩
      cases cands with
      | nil => exact ⟨none, rfl⟩
      | cons cand rest =>
        rcases cand with ⟨ct⟩
        cases ct with
        | none => exact ⟨none, rfl⟩
        | some c =>
          rcases c with ⟨parts⟩
          cases parts with
          | nil => exact ⟨none, rfl⟩
          | cons ph pt => exact ⟨_, rfl⟩

theorem neverErrIte (c : Prop) [Decidable c] {x y : M α} (hx : NeverErr x) (hy : NeverErr y) :
    NeverErr (if c then x else y) := by
  by_cases h : c <;> simp [h, hx, hy]

/-- After running `x`, no file is present at `p`. -/
def FilesAtNone (p : String) (x : M α) : Prop := ∀ w, ((x w).2).files p = none

theorem filesAtNoneBindLeft {p : String} {x : M α} {f : α → M β} (hx : NeverErr x)
    (hf : ∀ a, FilesAtNone p (f a)) : FilesAtNone p (M.bind x f) := by
  intro w
  obtain ⟨a, ha⟩ := hx w
  unfold M.bind
  cases hxw : x w with
  | mk r w2 =>
    rw [hxw] at ha
    cases r with
    | ok a2 => exact hf a2 w2
    | error er => simp at ha

theorem filesAtNoneBindRight {p : String} {x : M α} {f : α → M β} (hx : FilesAtNone p x)
    (hf : ∀ a, FilesEq (f a)) : FilesAtNone p (M.bind x f) := by
  intro w
  have h2 := hx w
  unfold M.bind
  cases hxw : x w with
  | mk r w2 =>
    rw [hxw] at h2
    cases r with
    | ok a => rw [hf a w2]; exact h2
    | error er => exact h2

theorem filesAtNoneRemoval (p : String) (h : PyErr → M Unit) :
    FilesAtNone p (M.tryCatch (M.removeFile p) h) := by
  intro w
  unfold M.tryCatch M.removeFile
  simp

theorem pyStartsWith_append_left (p s : String) : pyStartsWith (p ++ s) p = true := by
  simp [pyStartsWith, String.data_append, List.isPrefixOf_iff_prefix]

theorem pyStartsWith_tmpOcr (x y : String) :
    pyStartsWith ("/tmp/ocr_" ++ x ++ "_" ++ y) "/tmp/ocr_" = true := by
  have h : "/tmp/ocr_" ++ x ++ "_" ++ y = "/tmp/ocr_" ++ (x ++ ("_" ++ y)) := by
    rw [String.append_assoc, String.append_assoc]
  rw [h]
  exact pyStartsWith_append_left _ _

theorem steps_dupOcrWriteBack (ok : Effect → Prop) (env : Env) (docId t : String)
    (hupd : ∀ t2, ok (.updateOcr docId t2)) : Steps ok (dupOcrWriteBack env docId t) := by
  unfold dupOcrWriteBack
  refine stepsIte _ _ ?_ (stepsPure _ _)
  exact stepsTryCatch (steps_update_ocr _ _ _ _ (hupd t)) (fun _ => stepsPure _ _)

theorem filesEq_dupOcrWriteBack (env : Env) (docId t : String) :
    FilesEq (dupOcrWriteBack env docId t) := by
  unfold dupOcrWriteBack
  refine filesEqIte _ ?_ (filesEqPure _)
  exact filesEqTryCatch (filesEq_update_ocr _ _ _) (fun _ => filesEqPure _)

theorem neverErr_dupOcrWriteBack (env : Env) (docId t : String) :
    NeverErr (dupOcrWriteBack env docId t) := by
  unfold dupOcrWriteBack
  refine neverErrIte _ ?_ (neverErrPure _)
  exact neverErrTryCatch (fun _ => neverErrPure _)

theorem steps_dupOcrCleanup (ok : Effect → Prop) (p : String)
    (hrm : ok (.removeTemp p)) : Steps ok (dupOcrCleanup p) := by
  unfold dupOcrCleanup
  refine stepsIte _ _ ?_ (stepsPure _ _)
  exact stepsTryCatch (stepsRemoveFile _ hrm) (fun _ => stepsPure _ _)

theorem filesAtNone_dupOcrCleanup (p : String) (hstart : pyStartsWith p "/tmp/ocr_" = true) :
    FilesAtNone p (dupOcrCleanup p) := by
  unfold dupOcrCleanup
  rw [if_pos hstart]
  exact filesAtNoneRemoval p _

theorem steps_dupOcrAttempt (ok : Effect → Prop) (env : Env) (docId p : String)
    (hocr : ok (.ocrRun p)) (hupd : ∀ t, ok (.updateOcr docId t))
    (hrm : ok (.removeTemp p)) : Steps ok (dupOcrAttempt env docId p) := by
  unfold dupOcrAttempt
  simp only [M.bind_eq, M.pure_eq]
  refine stepsBind (stepsPathExists _ _) ?_
  intro ex
  refine stepsIte _ _ ?_ (stepsPure _ _)
  refine stepsBind (steps_extract_ocr _ _ _ hocr) ?_
  intro t
  refine stepsBind (steps_dupOcrWriteBack _ _ _ _ hupd) ?_
  intro _
  exact stepsBind (steps_dupOcrCleanup _ _ hrm) (fun _ => stepsPure _ _)

/-- If the file at `p` exists and `p` is `/tmp/ocr_`-prefixed, the duplicate
OCR attempt always removes it. -/
theorem dupOcrAttempt_files_after (env : Env) (docId p : String)
    (hstart : pyStartsWith p "/tmp/ocr_" = true) :
    ∀ w, (w.files p).isSome = true → ((dupOcrAttempt env docId p w).2).files p = none := by
  intro w hex
  unfold dupOcrAttempt
  simp only [M.bind_eq, M.pure_eq, M.bind_pathExists, hex, if_true]
  have h1 : FilesAtNone p (M.bind (extract_text_with_ocr env p) (fun t =>
      M.bind (dupOcrWriteBack env docId t)
        (fun _ => M.bind (dupOcrCleanup p) (fun _ => M.pure t)))) := by
    refine filesAtNoneBindLeft (neverErr_extract_ocr env p) ?_
    intro t
    refine filesAtNoneBindLeft (neverErr_dupOcrWriteBack env docId t) ?_
    intro _
    exact filesAtNoneBindRight (filesAtNone_dupOcrCleanup p hstart) (fun _ => filesEqPure _)
  exact h1 w

theorem cleansTemps_dupOcrAttempt (env : Env) (docId p : String) :
    CleansTemps (dupOcrAttempt env docId p) :=
  cleansTempsOfNonWrite
    (steps_dupOcrAttempt nonWrite env docId p trivial (fun _ => trivial) trivial)

theorem steps_dupLocateUri (ok : Effect → Prop) (d : SolrDoc) :
    Steps ok (dupLocateUri d) := by
  unfold dupLocateUri
  simp only [M.bind_eq, M.pure_eq]
  refine stepsIte _ _ ?_ (stepsPure _ _)
  exact stepsBind (stepsPathExists _ _) (fun _ => stepsPure _ _)

theorem filesEq_dupLocateUri (d : SolrDoc) : FilesEq (dupLocateUri d) := by
  unfold dupLocateUri
  simp only [M.bind_eq, M.pure_eq]
  refine filesEqIte _ ?_ (filesEqPure _)
  exact filesEqBind (filesEqPathExists _) (fun _ => filesEqPure _)

theorem steps_dupOcrBlock (ok : Effect → Prop) (env : Env)
    (docId fileHash filename : String) (content : List Nat) (d : SolrDoc)
    (hocr : ∀ p, ok (.ocrRun p)) (hupd : ∀ t, ok (.updateOcr docId t))
    (hw : ok (.writeTemp ("/tmp/ocr_" ++ fileHash ++ "_" ++ filename)))
    (hrm : ∀ p, ok (.removeTemp p)) :
    Steps ok (dupOcrBlock env docId fileHash filename content d) := by
  unfold dupOcrBlock
  simp only [M.bind_eq, M.pure_eq]
  refine stepsBind (steps_dupLocateUri ok d) ?_
  intro uriPath
  cases uriPath with
  | some p => exact steps_dupOcrAttempt ok env docId p (hocr p) hupd (hrm p)
  | none =>
    exact stepsBind (stepsWriteFile _ _ hw)
      (fun _ => steps_dupOcrAttempt ok env docId _ (hocr _) hupd (hrm _))

theorem cleansTemps_dupOcrBlock (env : Env) (docId fileHash filename : String)
    (content : List Nat) (d : SolrDoc) :
    CleansTemps (dupOcrBlock env docId fileHash filename content d) := by
  unfold dupOcrBlock
  simp only [M.bind_eq, M.pure_eq]
  refine cleansTempsBindLeft (steps_dupLocateUri nonWrite d) ?_
  intro uriPath
  cases uriPath with
  | some p => exact cleansTemps_dupOcrAttempt env docId p
  | none =>
      intro w q hq
      simp only [M.bind_writeFile] at hq ⊢
      obtain ⟨t, ht, hall⟩ :=
        steps_dupOcrAttempt nonWrite env docId ("/tmp/ocr_" ++ fileHash ++ "_" ++ filename)
          trivial (fun _ => trivial) trivial
          { w with
            files := fun q2 =>
              if q2 = "/tmp/ocr_" ++ fileHash ++ "_" ++ filename then some content
              else w.files q2,
            trace := w.trace ++ [.writeTemp ("/tmp/ocr_" ++ fileHash ++ "_" ++ filename)] }
      rw [ht] at hq
      rcases List.mem_append.1 hq with h1 | h2
      · rcases List.mem_append.1 h1 with h1a | h1b
        · exact .inl h1a
        · right
          have hq2 : q = "/tmp/ocr_" ++ fileHash ++ "_" ++ filename := by simpa using h1b
          rw [hq2]
          refine dupOcrAttempt_files_after env docId _ (pyStartsWith_tmpOcr _ _) _ ?_
          simp
      · exact absurd (hall _ h2) (by simp [nonWrite])

theorem steps_dupReport (ok : Effect → Prop) (env : Env)
    (docId filename origFn extracted : String) (hllm : ∀ pr, ok (.llmCall pr))
    (hsum : ∀ s, ok (.updateSummary docId s)) :
    Steps ok (dupReport env docId filename origFn extracted) := by
  unfold dupReport
  simp only [M.bind_eq, M.pure_eq]
  refine stepsIte _ _ ?_ (stepsPure _ _)
  refine stepsBind (steps_summarize _ _ _ _ hllm) ?_
  intro sOpt
  cases sOpt with
  | none => exact stepsPure _ _
  | some s =>
    refine stepsIte _ _ ?_ (stepsPure _ _)
    exact stepsBind (steps_update_summary _ _ _ _ (hsum s)) (fun _ => stepsPure _ _)

theorem filesEq_dupReport (env : Env) (docId filename origFn extracted : String) :
    FilesEq (dupReport env docId filename origFn extracted) := by
  unfold dupReport
  simp only [M.bind_eq, M.pure_eq]
  refine filesEqIte _ ?_ (filesEqPure _)
  refine filesEqBind (filesEq_summarize _ _ _) ?_
  intro sOpt
  cases sOpt with
  | none => exact filesEqPure _
  | some s =>
    refine filesEqIte _ ?_ (filesEqPure _)
    exact filesEqBind (filesEq_update_summary _ _ _) (fun _ => filesEqPure _)

theorem respOkIn_dupReport (env : Env) (docId filename origFn extracted : String) :
    RespOkIn ["summary_generated", "summary_failed", "no_content"]
      (dupReport env docId filename origFn extracted) := by
  unfold dupReport
  simp only [M.bind_eq, M.pure_eq]
  refine respOkInIte _ ?_ (respOkInPure _ (by simp))
  refine respOkInBind ?_
  intro sOpt
  cases sOpt with
  | none => exact respOkInPure _ (by simp)
  | some s =>
    refine respOkInIte _ ?_ (respOkInPure _ (by simp))
    exact respOkInBind (fun _ => respOkInPure _ (by simp))

theorem steps_dupNoSummaryBody (ok : Effect → Prop) (env : Env)
    (docId fileHash filename : String) (content : List Nat) (d : SolrDoc) (origFn : String)
    (hsel : ok (.select docId)) (hocr : ∀ p, ok (.ocrRun p))
    (hupd : ∀ t, ok (.updateOcr docId t))
    (hw : ok (.writeTemp ("/tmp/ocr_" ++ fileHash ++ "_" ++ filename)))
    (hrm : ∀ p, ok (.removeTemp p)) (hllm : ∀ pr, ok (.llmCall pr))
    (hsum : ∀ s, ok (.updateSummary docId s)) :
    Steps ok (dupNoSummaryBody env docId fileHash filename content d origFn) := by
  unfold dupNoSummaryBody
  simp only [M.bind_eq, M.pure_eq]
  refine stepsBind (steps_get_extracted_text _ _ _ hsel) ?_
  intro e1
  refine stepsBind ?_ ?_
  · unfold dupResolve
    refine stepsIte _ _ ?_ (stepsPure _ _)
    exact steps_dupOcrBlock ok env docId fileHash filename content d hocr hupd hw hrm
  · intro e2
    exact steps_dupReport ok env docId filename origFn e2 hllm hsum

theorem respOkIn_dupNoSummaryBody (env : Env) (docId fileHash filename : String)
    (content : List Nat) (d : SolrDoc) (origFn : String) :
    RespOkIn ["summary_generated", "summary_failed", "no_content"]
      (dupNoSummaryBody env docId fileHash filename content d origFn) := by
  unfold dupNoSummaryBody
  simp only [M.bind_eq, M.pure_eq]
  refine respOkInBind ?_
  intro e1
  refine respOkInBind ?_
  intro e2
  exact respOkIn_dupReport env docId filename origFn e2

theorem cleansTemps_dupNoSummaryBody (env : Env) (docId fileHash filename : String)
    (content : List Nat) (d : SolrDoc) (origFn : String) :
    CleansTemps (dupNoSummaryBody env docId fileHash filename content d origFn) := by
  unfold dupNoSummaryBody
  simp only [M.bind_eq, M.pure_eq]
  refine cleansTempsBindLeft (steps_get_extracted_text nonWrite env docId trivial) ?_
  intro e1
  refine cleansTempsBindRight ?_ ?_
  · unfold dupResolve
    refine cleansTempsIte _ ?_ (cleansTempsOfNonWrite (stepsPure _ _))
    exact cleansTemps_dupOcrBlock env docId fileHash filename content d
  · intro e2
    exact ⟨steps_dupReport nonWrite env docId filename origFn e2 (fun _ => trivial)
        (fun _ => trivial),
      filesEq_dupReport env docId filename origFn e2⟩

theorem steps_tempCleanup (ok : Effect → Prop) (p : String)
    (hrm : ok (.removeTemp p)) : Steps ok (tempCleanup p) := by
  unfold tempCleanup
  simp only [M.bind_eq, M.pure_eq]
  refine stepsBind (stepsPathExists _ _) ?_
  intro ex
  exact stepsIte _ _ (stepsRemoveFile _ hrm) (stepsPure _ _)

theorem steps_freshTryBody (ok : Effect → Prop) (env : Env)
    (docId tempPath filename : String) (content : List Nat)
    (hw : ok (.writeTemp tempPath)) (hex : ok (.extract docId tempPath))
    (hsel : ok (.select docId)) (hocr : ∀ p, ok (.ocrRun p))
    (hupd : ∀ t, ok (.updateOcr docId t)) (hllm : ∀ pr, ok (.llmCall pr))
    (hsum : ∀ s, ok (.updateSummary docId s)) :
    Steps ok (freshTryBody env docId tempPath filename content) := by
  unfold freshTryBody
  simp only [M.bind_eq, M.pure_eq]
  refine stepsBind (stepsWriteFile _ _ hw) ?_
  intro _
  refine stepsBind (steps_upload_pdf_to_solr _ _ _ _ hex) ?_
  intro _
  refine stepsBind (steps_fallback _ _ _ _ hsel hocr hupd) ?_
  intro text
  refine stepsIte _ _ (stepsThrow _ _) ?_
  refine stepsBind (steps_summarize _ _ _ _ hllm) ?_
  intro sOpt
  cases sOpt with
  | none => exact stepsThrow _ _
  | some s =>
    refine stepsIte _ _ ?_ (stepsThrow _ _)
    exact stepsBind (steps_update_summary _ _ _ _ (hsum s)) (fun _ => stepsPure _ _)

theorem steps_freshUploadBody (ok : Effect → Prop) (env : Env)
    (docId fileHash filename : String) (content : List Nat)
    (hw : ok (.writeTemp ("/tmp/" ++ fileHash ++ "_" ++ filename)))
    (hex : ok (.extract docId ("/tmp/" ++ fileHash ++ "_" ++ filename)))
    (hsel : ok (.select docId)) (hocr : ∀ p, ok (.ocrRun p))
    (hupd : ∀ t, ok (.updateOcr docId t)) (hllm : ∀ pr, ok (.llmCall pr))
    (hsum : ∀ s, ok (.updateSummary docId s)) (hrm : ∀ p, ok (.removeTemp p)) :
    Steps ok (freshUploadBody env docId fileHash filename content) := by
  unfold freshUploadBody
  refine stepsFinallyDo (stepsTryCatch
    (steps_freshTryBody ok env docId _ filename content hw hex hsel hocr hupd hllm hsum) ?_)
    (steps_tempCleanup ok _ (hrm _))
  intro e
  cases e <;> exact stepsThrow _ _

theorem cleansTemps_freshUploadBody (env : Env) (docId fileHash filename : String)
    (content : List Nat) :
    CleansTemps (freshUploadBody env docId fileHash filename content) := by
  unfold freshUploadBody
  refine cleansTempsFinallyCleanup (stepsTryCatch ?_ ?_)
  · exact steps_freshTryBody (writesOnly ("/tmp/" ++ fileHash ++ "_" ++ filename)) env docId _
      filename content rfl trivial trivial (fun _ => trivial) (fun _ => trivial)
      (fun _ => trivial) (fun _ => trivial)
  · intro e
    cases e <;> exact stepsThrow _ _

theorem steps_updOcrLocate (ok : Effect → Prop) (env : Env) (docId : String)
    (d : SolrDoc) (origFn : String) (hocr : ∀ p, ok (.ocrRun p))
    (hupd : ∀ t, ok (.updateOcr docId t)) : Steps ok (updOcrLocate env docId d origFn) := by
  unfold updOcrLocate
  simp only [M.bind_eq, M.pure_eq]
  refine stepsBind (stepsGetFilesMap _) ?_
  intro files
  cases locatePdfPath files d docId origFn with
  | none => exact stepsThrow _ _
  | some p =>
    refine stepsBind (steps_extract_ocr _ _ _ (hocr p)) ?_
    intro t
    refine stepsIte _ _ ?_ (stepsThrow _ _)
    exact stepsBind
      (stepsTryCatch (steps_update_ocr _ _ _ _ (hupd t)) (fun _ => stepsPure _ _))
      (fun _ => stepsPure _ _)

theorem steps_updateSummaryBody (ok : Effect → Prop) (env : Env) (docId : String)
    (q : Option String) (hsel : ok (.select docId)) (hocr : ∀ p, ok (.ocrRun p))
    (hupd : ∀ t, ok (.updateOcr docId t)) (hllm : ∀ pr, ok (.llmCall pr))
    (hsum : ∀ s, ok (.updateSummary docId s)) :
    Steps ok (updateSummaryBody env docId q) := by
  unfold updateSummaryBody
  simp only [M.bind_eq, M.pure_eq]
  refine stepsBind (steps_check _ _ _ hsel) ?_
  intro r
  cases hr : r.2 with
  | none => exact stepsThrow _ _
  | some d =>
    refine stepsBind (steps_get_extracted_text _ _ _ hsel) ?_
    intro t0
    refine stepsBind ?_ ?_
    · unfold updResolve
      refine stepsIte _ _ ?_ (stepsPure _ _)
      exact steps_updOcrLocate ok env docId d _ hocr hupd
    · intro text
      refine stepsIte _ _ (stepsThrow _ _) ?_
      refine stepsBind (steps_summarize _ _ _ _ hllm) ?_
      intro sOpt
      cases sOpt with
      | none => exact stepsThrow _ _
      | some s =>
        refine stepsIte _ _ ?_ (stepsThrow _ _)
        exact stepsBind (steps_update_summary _ _ _ _ (hsum s)) (fun _ => stepsPure _ _)

theorem steps_update_document_summary (ok : Effect → Prop) (env : Env) (docId : String)
    (q : Option String) (hsel : ok (.select docId)) (hocr : ∀ p, ok (.ocrRun p))
    (hupd : ∀ t, ok (.updateOcr docId t)) (hllm : ∀ pr, ok (.llmCall pr))
    (hsum : ∀ s, ok (.updateSummary docId s)) :
    Steps ok (update_document_summary env docId q) := by
  unfold update_document_summary
  refine stepsTryCatch (steps_updateSummaryBody ok env docId q hsel hocr hupd hllm hsum) ?_
  intro e
  cases e <;> exact stepsThrow _ _

theorem steps_updateWithFileInner (ok : Effect → Prop) (env : Env)
    (docId origFn filename : String) (content : List Nat) (tempPath : String)
    (hw : ok (.writeTemp tempPath)) (hocr : ok (.ocrRun tempPath))
    (hupd : ∀ t, ok (.updateOcr docId t)) (hllm : ∀ pr, ok (.llmCall pr))
    (hsum : ∀ s, ok (.updateSummary docId s)) :
    Steps ok (updateWithFileInner env docId origFn filename content tempPath) := by
  unfold updateWithFileInner
  simp only [M.bind_eq, M.pure_eq]
  refine stepsBind (stepsWriteFile _ _ hw) ?_
  intro _
  refine stepsBind (steps_extract_ocr _ _ _ hocr) ?_
  intro t
  refine stepsIte _ _ (stepsThrow _ _) ?_
  refine stepsBind (steps_update_ocr _ _ _ _ (hupd t)) ?_
  intro _
  refine stepsBind (steps_summarize _ _ _ _ hllm) ?_
  intro sOpt
  cases sOpt with
  | none => exact stepsThrow _ _
  | some s =>
    refine stepsIte _ _ ?_ (stepsThrow _ _)
    exact stepsBind (steps_update_summary _ _ _ _ (hsum s)) (fun _ => stepsPure _ _)

theorem steps_updateWithFileBody (ok : Effect → Prop) (env : Env)
    (docId filename : String) (content : List Nat)
    (hsel : ok (.select docId))
    (hw : ok (.writeTemp ("/tmp/ocr_" ++ docId ++ "_" ++ filename)))
    (hocr : ok (.ocrRun ("/tmp/ocr_" ++ docId ++ "_" ++ filename)))
    (hupd : ∀ t, ok (.updateOcr docId t)) (hllm : ∀ pr, ok (.llmCall pr))
    (hsum : ∀ s, ok (.updateSummary docId s)) (hrm : ∀ p, ok (.removeTemp p)) :
    Steps ok (updateWithFileBody env docId filename content) := by
  unfold updateWithFileBody
  simp only [M.bind_eq, M.pure_eq]
  refine stepsIte _ _ (stepsThrow _ _) ?_
  refine stepsBind (steps_check _ _ _ hsel) ?_
  intro r
  cases hr : r.2 with
  | none => exact stepsThrow _ _
  | some d =>
    refine stepsFinallyDo ?_ (steps_tempCleanup ok _ (hrm _))
    exact steps_updateWithFileInner ok env docId _ filename content _ hw hocr hupd hllm hsum

theorem cleansTemps_updateWithFileBody (env : Env) (docId filename : String)
    (content : List Nat) : CleansTemps (updateWithFileBody env docId filename content) := by
  unfold updateWithFileBody
  simp only [M.bind_eq, M.pure_eq]
  by_cases hp : pyEndsWith filename ".pdf" = true
  · rw [if_neg (by simp [hp])]
    refine cleansTempsBindLeft (steps_check nonWrite env docId trivial) ?_
    intro r
    cases hr : r.2 with
    | none => exact cleansTempsOfNonWrite (stepsThrow _ _)
    | some d =>
      refine cleansTempsFinallyCleanup ?_
      exact steps_updateWithFileInner (writesOnly ("/tmp/ocr_" ++ docId ++ "_" ++ filename))
        env docId _ filename content _ rfl trivial (fun _ => trivial) (fun _ => trivial)
        (fun _ => trivial)
  · rw [if_pos (by simp [hp])]
    exact cleansTempsOfNonWrite (stepsThrow _ _)

theorem steps_update_document_summary_with_file (ok : Effect → Prop) (env : Env)
    (docId filename : String) (content : List Nat)
    (hsel : ok (.select docId))
    (hw : ok (.writeTemp ("/tmp/ocr_" ++ docId ++ "_" ++ filename)))
    (hocr : ok (.ocrRun ("/tmp/ocr_" ++ docId ++ "_" ++ filename)))
    (hupd : ∀ t, ok (.updateOcr docId t)) (hllm : ∀ pr, ok (.llmCall pr))
    (hsum : ∀ s, ok (.updateSummary docId s)) (hrm : ∀ p, ok (.removeTemp p)) :
    Steps ok (update_document_summary_with_file env docId filename content) := by
  unfold update_document_summary_with_file
  refine stepsTryCatch
    (steps_updateWithFileBody ok env docId filename content hsel hw hocr hupd hllm hsum hrm) ?_
  intro e
  cases e <;> exact stepsThrow _ _

theorem cleansTemps_update_document_summary_with_file (env : Env)
    (docId filename : String) (content : List Nat) :
    CleansTemps (update_document_summary_with_file env docId filename content) := by
  unfold update_document_summary_with_file
  refine cleansTempsTryCatch (cleansTemps_updateWithFileBody env docId filename content) ?_
  intro e
  cases e <;> exact ⟨stepsThrow _ _, filesEqThrow _⟩

theorem steps_get_document_info (ok : Effect → Prop) (env : Env) (docId : String)
    (hsel : ok (.select docId)) : Steps ok (get_document_info env docId) := by
  unfold get_document_info
  refine stepsTryCatch ?_ ?_
  · simp only [M.bind_eq, M.pure_eq]
    refine stepsBind (steps_check _ _ _ hsel) ?_
    intro r
    cases hr : r.2 with
    | none => exact stepsThrow _ _
    | some d => exact stepsPure _ _
  · intro e
    cases e <;> exact stepsThrow _ _

theorem cleansTemps_upload (env : Env) (filename : String) (content : List Nat) :
    CleansTemps (upload_and_process_pdf env filename content) := by
  unfold upload_and_process_pdf
  simp only [M.bind_eq, M.pure_eq]
  by_cases hp : pyEndsWith filename ".pdf" = true
  · rw [if_neg (by simp [hp])]
    refine cleansTempsBindLeft (steps_check nonWrite env _ trivial) ?_
    intro r
    cases hr : r.2 with
    | none => exact cleansTemps_freshUploadBody env _ _ filename content
    | some d =>
      refine cleansTempsIte _ (cleansTempsOfNonWrite (stepsPure _ _)) ?_
      refine cleansTempsTryCatch (cleansTemps_dupNoSummaryBody env _ _ filename content d _) ?_
      intro e
      exact ⟨stepsPure _ _, filesEqPure _⟩
  · rw [if_pos (by simp [hp])]
    exact cleansTempsOfNonWrite (stepsThrow _ _)

/-! ## Trace-membership helpers -/

theorem check_trace (env : Env) (docId : String) (w : World) :
    ((check_document_exists env docId w).2).trace = w.trace ++ [.select docId] := by
  unfold check_document_exists
  simp only [M.bind_eq, M.pure_eq, M.bind_emit]
  by_cases h : env.selectErr = true
  · rw [if_pos h]
    rfl
  · rw [if_neg h]
    rfl

theorem mem_trace_bind {x : M α} {f : α → M β} (hf : ∀ a, Steps (fun _ => True) (f a))
    {w : World} {e : Effect} (he : e ∈ ((x w).2).trace) :
    e ∈ ((M.bind x f w).2).trace := by
  unfold M.bind
  cases hxw : x w with
  | mk r w2 =>
    rw [hxw] at he
    cases r with
    | ok a =>
      obtain ⟨t, ht, -⟩ := hf a w2
      rw [ht]
      exact List.mem_append_left _ he
    | error er => exact he

theorem mem_trace_tryCatch {x : M α} {h : PyErr → M α}
    (hh : ∀ e2, Steps (fun _ => True) (h e2)) {w : World} {e : Effect}
    (he : e ∈ ((x w).2).trace) : e ∈ ((M.tryCatch x h w).2).trace := by
  unfold M.tryCatch
  cases hxw : x w with
  | mk r w2 =>
    rw [hxw] at he
    cases r with
    | ok a => exact he
    | error er =>
      obtain ⟨t, ht, -⟩ := hh er w2
      rw [ht]
      exact List.mem_append_left _ he

theorem upload_select_effect (env : Env) (filename : String) (content : List Nat)
    (hpdf : pyEndsWith filename ".pdf" = true) (w : World) :
    Effect.select ("doc_" ++ calculate_file_hash content) ∈
      ((upload_and_process_pdf env filename content w).2).trace := by
  unfold upload_and_process_pdf
  rw [if_neg (by simp [hpdf])]
  simp only [M.bind_eq, M.pure_eq]
  refine mem_trace_bind ?_ ?_
  · intro r
    rcases r with ⟨b, dOpt⟩
    cases dOpt with
    | none =>
      exact steps_freshUploadBody (fun _ => True) env _ _ filename content trivial trivial
        trivial (fun _ => trivial) (fun _ => trivial) (fun _ => trivial) (fun _ => trivial)
        (fun _ => trivial)
    | some d =>
      refine stepsIte _ _ (stepsPure _ _) ?_
      refine stepsTryCatch (steps_dupNoSummaryBody (fun _ => True) env _ _ filename content d _
        trivial (fun _ => trivial) (fun _ => trivial) trivial (fun _ => trivial)
        (fun _ => trivial) (fun _ => trivial)) ?_
      intro e
      exact stepsPure _ _
  · rw [check_trace]
    exact List.mem_append_right _ (by simp)

theorem updateWithFile_select_effect (env : Env) (docId filename : String)
    (content : List Nat) (hpdf : pyEndsWith filename ".pdf" = true) (w : World) :
    Effect.select docId ∈
      ((update_document_summary_with_file env docId filename content w).2).trace := by
  unfold update_document_summary_with_file
  refine mem_trace_tryCatch ?_ ?_
  · intro e2
    cases e2 <;> exact stepsThrow _ _
  · unfold updateWithFileBody
    rw [if_neg (by simp [hpdf])]
    simp only [M.bind_eq, M.pure_eq]
    refine mem_trace_bind ?_ ?_
    · intro r
      rcases r with ⟨b, dOpt⟩
      cases dOpt with
      | none => exact stepsThrow _ _
      | some d =>
        exact stepsFinallyDo
          (steps_updateWithFileInner (fun _ => True) env docId _ filename content _ trivial
            trivial (fun _ => trivial) (fun _ => trivial) (fun _ => trivial))
          (steps_tempCleanup _ _ trivial)
    · rw [check_trace]
      exact List.mem_append_right _ (by simp)

/-! ## The claims -/

/-- C1: the document identifier computed by the upload endpoint is `"doc_"`
followed by the lowercase hex SHA-256 digest of the uploaded bytes; it is a
function of the bytes alone (the filename is not an input), so identical
content always yields the same identifier, and contents with differing
digests yield differing identifiers. -/
theorem upload_id_content_addressed (c1 c2 : List Nat)
    (hne : calculate_file_hash c1 ≠ calculate_file_hash c2) :
    docIdOf c1 = "doc_" ++ sha256hex c1 ∧ docIdOf c1 ≠ docIdOf c2 := by
  constructor
  · rfl
  · intro hc
    apply hne
    apply String.ext
    have h2 := congrArg String.data hc
    simp only [docIdOf, String.data_append] at h2
    exact List.append_cancel_left h2

/-- Witness for C1 at the concrete contents `[]` and `"abc"`. -/
theorem upload_id_content_addressed_witness :
    calculate_file_hash [] ≠ calculate_file_hash [97, 98, 99] ∧
      (docIdOf [] = "doc_" ++ sha256hex [] ∧ docIdOf [] ≠ docIdOf [97, 98, 99]) :=
  ⟨by decide, upload_id_content_addressed [] [97, 98, 99] (by decide)⟩

/-- C4: every entry operation removes every temp file it creates on every exit
path: starting from an empty trace, any `writeTemp p` recorded by a run of
`upload_and_process_pdf` (including the duplicate-without-summary temp copy) or
of `update_document_summary_with_file` leaves no file at `p` in the final
filesystem, and `update_document_summary` and `get_document_info` never create
a temp file at all — for every environment (any OCR, LLM and store-failure
behaviour). -/
theorem temp_files_removed_on_all_paths (env : Env) (filename docId : String)
    (q : Option String) (content : List Nat) (store : String → Option SolrDoc)
    (files : String → Option (List Nat)) :
    (∀ p, Effect.writeTemp p ∈
        ((upload_and_process_pdf env filename content ⟨store, files, []⟩).2).trace →
      ((upload_and_process_pdf env filename content ⟨store, files, []⟩).2).files p = none) ∧
    (∀ p, Effect.writeTemp p ∈
        ((update_document_summary_with_file env docId filename content
          ⟨store, files, []⟩).2).trace →
      ((update_document_summary_with_file env docId filename content
        ⟨store, files, []⟩).2).files p = none) ∧
    (∀ p, Effect.writeTemp p ∉
      ((update_document_summary env docId q ⟨store, files, []⟩).2).trace) ∧
    (∀ p, Effect.writeTemp p ∉
      ((get_document_info env docId ⟨store, files, []⟩).2).trace) := by
  refine ⟨?_, ?_, ?_, ?_⟩
  · intro p hp
    rcases cleansTemps_upload env filename content ⟨store, files, []⟩ p hp with h | h
    · simp at h
    · exact h
  · intro p hp
    rcases cleansTemps_update_document_summary_with_file env docId filename content
      ⟨store, files, []⟩ p hp with h | h
    · simp at h
    · exact h
  · intro p hp
    obtain ⟨t, ht, hall⟩ := steps_update_document_summary nonWrite env docId q trivial
      (fun _ => trivial) (fun _ => trivial) (fun _ => trivial) (fun _ => trivial)
      ⟨store, files, []⟩
    rw [ht] at hp
    simp only [List.nil_append] at hp
    exact absurd (hall _ hp) (by simp [nonWrite])
  · intro p hp
    obtain ⟨t, ht, hall⟩ := steps_get_document_info nonWrite env docId trivial
      ⟨store, files, []⟩
    rw [ht] at hp
    simp only [List.nil_append] at hp
    exact absurd (hall _ hp) (by simp [nonWrite])

/-- Witness for C4: a concrete duplicate-without-summary upload writes the
`/tmp/ocr_…` temp copy, and the final filesystem no longer contains it. -/
theorem temp_files_removed_on_all_paths_witness :
    ((upload_and_process_pdf {} "a.pdf" [1]
        ⟨fun i => if i = "doc_" ++ calculate_file_hash [1] then some {} else none,
         fun _ => none, []⟩).2).files
      ("/tmp/ocr_" ++ calculate_file_hash [1] ++ "_" ++ "a.pdf") = none :=
  (temp_files_removed_on_all_paths {} "a.pdf" "d" none [1]
      (fun i => if i = "doc_" ++ calculate_file_hash [1] then some {} else none)
      (fun _ => none)).1 _ (by decide)

/-- C10: both file-upload endpoints accept a file iff its filename ends with
the exact lowercase `".pdf"`: any other filename (e.g. ending in `".PDF"`) is
rejected with the 400 "Only PDF files are allowed" before any effect — the
returned world is the unchanged initial world with an empty trace — while a
matching filename proceeds to the store existence query. -/
theorem pdf_suffix_validation (env : Env) (filename docId : String) (content : List Nat)
    (store : String → Option SolrDoc) (files : String → Option (List Nat)) :
    (pyEndsWith filename ".pdf" = false →
      upload_and_process_pdf env filename content ⟨store, files, []⟩ =
        (.error (.httpExc 400 "Only PDF files are allowed"), ⟨store, files, []⟩) ∧
      update_document_summary_with_file env docId filename content ⟨store, files, []⟩ =
        (.error (.httpExc 400 "Only PDF files are allowed"), ⟨store, files, []⟩)) ∧
    (pyEndsWith filename ".pdf" = true →
      Effect.select ("doc_" ++ calculate_file_hash content) ∈
        ((upload_and_process_pdf env filename content ⟨store, files, []⟩).2).trace ∧
      Effect.select docId ∈
        ((update_document_summary_with_file env docId filename content
          ⟨store, files, []⟩).2).trace) ∧
    pyEndsWith "report.PDF" ".pdf" = false ∧ pyEndsWith "report.pdf" ".pdf" = true := by
  refine ⟨?_, ?_, by decide, by decide⟩
  · intro hn
    constructor
    · unfold upload_and_process_pdf
      rw [if_pos (by simp [hn])]
      rfl
    · unfold update_document_summary_with_file updateWithFileBody
      rw [if_pos (by simp [hn])]
      rfl
  · intro hp
    exact ⟨upload_select_effect env filename content hp _,
      updateWithFile_select_effect env docId filename content hp _⟩

/-- Witness for C10: an uppercase `.PDF` upload is rejected untouched; a
lowercase `.pdf` upload reaches the store query. -/
theorem pdf_suffix_validation_witness :
    upload_and_process_pdf {} "report.PDF" [1] ⟨fun _ => none, fun _ => none, []⟩ =
      (.error (.httpExc 400 "Only PDF files are allowed"),
        ⟨fun _ => none, fun _ => none, []⟩) ∧
    Effect.select ("doc_" ++ calculate_file_hash [1]) ∈
      ((upload_and_process_pdf {} "report.pdf" [1]
        ⟨fun _ => none, fun _ => none, []⟩).2).trace :=
  ⟨((pdf_suffix_validation {} "report.PDF" "d" [1] (fun _ => none) (fun _ => none)).1
      (by decide)).1,
   ((pdf_suffix_validation {} "report.pdf" "d" [1] (fun _ => none) (fun _ => none)).2.1
      (by decide)).1⟩

/-- C2: a duplicate upload whose stored record carries a summary that is
non-empty after trimming reports `already_exists` and performs no further
work: no extract-and-index call, no field update, no temp file — the final
world keeps the initial store and filesystem, and the whole trace is the one
existence query. -/
theorem upload_duplicate_with_summary (env : Env) (filename : String) (content : List Nat)
    (store : String → Option SolrDoc) (files : String → Option (List Nat)) (d : SolrDoc)
    (hpdf : pyEndsWith filename ".pdf" = true) (hsel : env.selectErr = false)
    (hdoc : store ("doc_" ++ calculate_file_hash content) = some d)
    (hsum : pyStrip (existingSummary d) ≠ "") :
    upload_and_process_pdf env filename content ⟨store, files, []⟩ =
      (.ok { status := "already_exists",
             document_id := "doc_" ++ calculate_file_hash content,
             current_filename := filename,
             original_filename := origFilename d filename,
             summary := existingSummary d,
             message := "Document already exists in the system (duplicate of " ++
               origFilename d filename ++ ")" },
       ⟨store, files, [.select ("doc_" ++ calculate_file_hash content)]⟩) := by
  have hne : existingSummary d ≠ "" := by
    intro h0
    apply hsum
    rw [h0]
    rfl
  unfold upload_and_process_pdf check_document_exists
  simp only [M.bind_eq, M.pure_eq, M.bind_assoc, M.bind_emit, M.bind_getStore, M.bind_pure,
    hpdf, hsel, hdoc, hne, hsum, List.nil_append, Bool.false_eq_true, not_true_eq_false,
    if_false, ne_eq, not_false_eq_true, and_self, if_true, Option.isSome_some, M.pure]

/-- Witness for C2: a concrete duplicate upload with stored summary `"S"`. -/
theorem upload_duplicate_with_summary_witness :
    upload_and_process_pdf {} "a.pdf" [1]
        ⟨fun i => if i = "doc_" ++ calculate_file_hash [1] then
            some { summary := some ["S"] } else none,
         fun _ => none, []⟩ =
      (.ok { status := "already_exists", document_id := "doc_" ++ calculate_file_hash [1],
             current_filename := "a.pdf", original_filename := "a.pdf", summary := "S",
             message := "Document already exists in the system (duplicate of a.pdf)" },
       ⟨fun i => if i = "doc_" ++ calculate_file_hash [1] then
            some { summary := some ["S"] } else none,
        fun _ => none, [.select ("doc_" ++ calculate_file_hash [1])]⟩) :=
  upload_duplicate_with_summary {} "a.pdf" [1] _ _ { summary := some ["S"] }
    (by decide) rfl (by simp) (by decide)

/-- Under the duplicate-without-summary hypotheses the upload endpoint runs the
duplicate branch wrapped in its catch-all handler, from the post-query world. -/
theorem upload_dup_nosummary_run (env : Env) (filename : String) (content : List Nat)
    (store : String → Option SolrDoc) (files : String → Option (List Nat)) (d : SolrDoc)
    (hpdf : pyEndsWith filename ".pdf" = true) (hsel : env.selectErr = false)
    (hdoc : store ("doc_" ++ calculate_file_hash content) = some d)
    (hsum : pyStrip (existingSummary d) = "") :
    upload_and_process_pdf env filename content ⟨store, files, []⟩ =
      M.tryCatch (dupNoSummaryBody env ("doc_" ++ calculate_file_hash content)
          (calculate_file_hash content) filename content d (origFilename d filename))
        (fun e => M.pure (dupErrResp ("doc_" ++ calculate_file_hash content) filename
          (origFilename d filename) e))
        ⟨store, files, [.select ("doc_" ++ calculate_file_hash content)]⟩ := by
  unfold upload_and_process_pdf check_document_exists
  simp only [M.bind_eq, M.pure_eq, M.bind_assoc, M.bind_emit, M.bind_getStore, M.bind_pure,
    hpdf, hsel, hdoc, hsum, List.nil_append, Bool.false_eq_true, not_true_eq_false,
    if_false, ne_eq, eq_self_iff_true, not_true, and_false, Option.isSome_some, M.pure]

/-- C3: a duplicate upload whose stored summary is empty or whitespace-only
reports exactly one of `summary_generated` / `summary_failed` / `no_content` /
`error` — it never raises — and never performs the extract-and-index
operation, whatever the OCR, store-update and LLM oracles do. -/
theorem upload_duplicate_no_summary_statuses (env : Env) (filename : String)
    (content : List Nat) (store : String → Option SolrDoc)
    (files : String → Option (List Nat)) (d : SolrDoc)
    (hpdf : pyEndsWith filename ".pdf" = true) (hsel : env.selectErr = false)
    (hdoc : store ("doc_" ++ calculate_file_hash content) = some d)
    (hsum : pyStrip (existingSummary d) = "") :
    (∃ r, (upload_and_process_pdf env filename content ⟨store, files, []⟩).1 = .ok r ∧
      r.status ∈ ["summary_generated", "summary_failed", "no_content", "error"]) ∧
    ∀ i p, Effect.extract i p ∉
      ((upload_and_process_pdf env filename content ⟨store, files, []⟩).2).trace := by
  rw [upload_dup_nosummary_run env filename content store files d hpdf hsel hdoc hsum]
  constructor
  · obtain ⟨r, hr⟩ := neverErrTryCatch
      (x := dupNoSummaryBody env ("doc_" ++ calculate_file_hash content)
        (calculate_file_hash content) filename content d (origFilename d filename))
      (h := fun e => M.pure (dupErrResp ("doc_" ++ calculate_file_hash content) filename
        (origFilename d filename) e))
      (fun e => neverErrPure _)
      ⟨store, files, [.select ("doc_" ++ calculate_file_hash content)]⟩
    refine ⟨r, hr, ?_⟩
    refine respOkInTryCatch ?_ (fun e => respOkInPure _ (by simp [dupErrResp])) _ r hr
    refine respOkInMono ?_ (respOkIn_dupNoSummaryBody env _ _ filename content d _)
    intro s hs
    simp only [List.mem_cons, List.not_mem_nil, or_false] at hs
    rcases hs with h | h | h <;> simp [h]
  · intro i p hmem
    obtain ⟨t, ht, hall⟩ := stepsTryCatch
      (steps_dupNoSummaryBody nonExtract env _ _ filename content d _ trivial
        (fun _ => trivial) (fun _ => trivial) trivial (fun _ => trivial) (fun _ => trivial)
        (fun _ => trivial))
      (fun e => stepsPure _ _)
      ⟨store, files, [.select ("doc_" ++ calculate_file_hash content)]⟩
    rw [ht] at hmem
    rcases List.mem_append.1 hmem with h1 | h2
    · simp at h1
    · exact absurd (hall _ h2) (by simp [nonExtract])

/-- Witness for C3: a duplicate record with no summary, empty stored text, no
`file_uri` and failing OCR yields `no_content` without any extract call. -/
theorem upload_duplicate_no_summary_statuses_witness :
    (∃ r, (upload_and_process_pdf {} "a.pdf" [1]
        ⟨fun i => if i = "doc_" ++ calculate_file_hash [1] then some {} else none,
         fun _ => none, []⟩).1 = .ok r ∧
      r.status ∈ ["summary_generated", "summary_failed", "no_content", "error"]) ∧
    ∀ i p, Effect.extract i p ∉
      ((upload_and_process_pdf {} "a.pdf" [1]
        ⟨fun i => if i = "doc_" ++ calculate_file_hash [1] then some {} else none,
         fun _ => none, []⟩).2).trace :=
  upload_duplicate_no_summary_statuses {} "a.pdf" [1] _ _ {}
    (by decide) rfl (by simp) (by decide)

/-- The post-query run of `get_document_info` on an existing record. -/
theorem doc_info_run (env : Env) (docId : String) (store : String → Option SolrDoc)
    (files : String → Option (List Nat)) (d : SolrDoc)
    (hsel : env.selectErr = false) (hdoc : store docId = some d) :
    get_document_info env docId ⟨store, files, []⟩ =
      (.ok { status := "found", document_id := docId, filename := origFilename d "unknown",
             summary := existingSummary d,
             has_summary := existingSummary d != "" && pyStrip (existingSummary d) != "",
             message := "Document " ++ origFilename d "unknown" ++ " found" },
       ⟨store, files, [.select docId]⟩) := by
  unfold get_document_info check_document_exists
  simp only [M.bind_eq, M.pure_eq, M.bind_assoc, M.bind_emit, M.bind_getStore, M.bind_pure,
    hsel, hdoc, List.nil_append, Bool.false_eq_true, if_false, Option.isSome_some,
    M.tryCatch, M.pure]

/-- C9: a stored summary that is empty or whitespace-only is treated as absent
throughout the public interface: a duplicate upload of such a record takes the
generate-summary branch (its status is one of the four generation outcomes,
never `already_exists`), and fetch-info reports `has_summary = false` while
still returning the stored summary string in the `summary` field. -/
theorem empty_summary_treated_as_absent (env : Env) (filename : String)
    (content : List Nat) (store : String → Option SolrDoc)
    (files : String → Option (List Nat)) (d : SolrDoc)
    (hpdf : pyEndsWith filename ".pdf" = true) (hsel : env.selectErr = false)
    (hdoc : store ("doc_" ++ calculate_file_hash content) = some d)
    (hsum : pyStrip (existingSummary d) = "") :
    (∃ r, (upload_and_process_pdf env filename content ⟨store, files, []⟩).1 = .ok r ∧
      r.status ≠ "already_exists" ∧
      r.status ∈ ["summary_generated", "summary_failed", "no_content", "error"]) ∧
    get_document_info env ("doc_" ++ calculate_file_hash content) ⟨store, files, []⟩ =
      (.ok { status := "found", document_id := "doc_" ++ calculate_file_hash content,
             filename := origFilename d "unknown", summary := existingSummary d,
             has_summary := false,
             message := "Document " ++ origFilename d "unknown" ++ " found" },
       ⟨store, files, [.select ("doc_" ++ calculate_file_hash content)]⟩) := by
  constructor
  · rw [upload_dup_nosummary_run env filename content store files d hpdf hsel hdoc hsum]
    obtain ⟨r, hr⟩ := neverErrTryCatch
      (x := dupNoSummaryBody env ("doc_" ++ calculate_file_hash content)
        (calculate_file_hash content) filename content d (origFilename d filename))
      (h := fun e => M.pure (dupErrResp ("doc_" ++ calculate_file_hash content) filename
        (origFilename d filename) e))
      (fun e => neverErrPure _)
      ⟨store, files, [.select ("doc_" ++ calculate_file_hash content)]⟩
    have hstat : r.status ∈ ["summary_generated", "summary_failed", "no_content", "error"] := by
      refine respOkInTryCatch ?_ (fun e => respOkInPure _ (by simp [dupErrResp])) _ r hr
      refine respOkInMono ?_ (respOkIn_dupNoSummaryBody env _ _ filename content d _)
      intro s hs
      simp only [List.mem_cons, List.not_mem_nil, or_false] at hs
      rcases hs with h | h | h <;> simp [h]
    refine ⟨r, hr, ?_, hstat⟩
    intro hae
    rw [hae] at hstat
    simp at hstat
  · rw [doc_info_run env _ store files d hsel hdoc]
    simp [hsum]

/-- Witness for C9: a record whose stored summary is the whitespace string
`" "` is not treated as `already_exists` and fetch-info reports
`has_summary = false` with `summary = " "`. -/
theorem empty_summary_treated_as_absent_witness :
    (∃ r, (upload_and_process_pdf {} "a.pdf" [1]
        ⟨fun i => if i = "doc_" ++ calculate_file_hash [1] then
            some { summary := some [" "] } else none,
         fun _ => none, []⟩).1 = .ok r ∧
      r.status ≠ "already_exists" ∧
      r.status ∈ ["summary_generated", "summary_failed", "no_content", "error"]) ∧
    get_document_info {} ("doc_" ++ calculate_file_hash [1])
        ⟨fun i => if i = "doc_" ++ calculate_file_hash [1] then
            some { summary := some [" "] } else none,
         fun _ => none, []⟩ =
      (.ok { status := "found", document_id := "doc_" ++ calculate_file_hash [1],
             filename := "unknown", summary := " ", has_summary := false,
             message := "Document unknown found" },
       ⟨fun i => if i = "doc_" ++ calculate_file_hash [1] then
            some { summary := some [" "] } else none,
        fun _ => none, [.select ("doc_" ++ calculate_file_hash [1])]⟩) :=
  empty_summary_treated_as_absent {} "a.pdf" [1] _ _ { summary := some [" "] }
    (by decide) rfl (by simp) (by decide)

/-- Rewriting rule: running the OCR wrapper and continuing. -/
theorem bind_extract_ocr (env : Env) (p : String) (f : String → M β) (w : World) :
    M.bind (extract_text_with_ocr env p) f w =
      f (match w.files p with | none => "" | some bytes => pyStrip (env.ocr bytes))
        { w with trace := w.trace ++ [.ocrRun p] } := by
  unfold M.bind
  rw [extract_ocr_run]

/-- C5: text resolution returns the indexing engine's stored text unchanged
whenever it is non-empty after trimming (list-valued content is joined first),
and invokes OCR only when that text is empty after joining and trimming. -/
theorem resolve_text_prefers_store_text (env : Env) (docId : String)
    (pdfPath : Option String) (store : String → Option SolrDoc)
    (files : String → Option (List Nat)) (d : SolrDoc)
    (hsel : env.fallbackSelectErr = false) (hdoc : store docId = some d) :
    (pyStrip (contentToText d.attr_content) ≠ "" →
      get_extracted_text_with_ocr_fallback env docId pdfPath ⟨store, files, []⟩ =
        (.ok (pyStrip (contentToText d.attr_content)), ⟨store, files, [.select docId]⟩)) ∧
    (∀ p, Effect.ocrRun p ∈
        ((get_extracted_text_with_ocr_fallback env docId pdfPath
          ⟨store, files, []⟩).2).trace →
      pyStrip (contentToText d.attr_content) = "") := by
  have hmain : pyStrip (contentToText d.attr_content) ≠ "" →
      get_extracted_text_with_ocr_fallback env docId pdfPath ⟨store, files, []⟩ =
        (.ok (pyStrip (contentToText d.attr_content)), ⟨store, files, [.select docId]⟩) := by
    intro hne
    unfold get_extracted_text_with_ocr_fallback
    cases pdfPath with
    | none =>
      simp only [M.bind_eq, M.pure_eq, M.bind_assoc, M.bind_emit, M.bind_getStore, hsel,
        hdoc, List.nil_append, Bool.false_eq_true, if_false, M.pure]
    | some p =>
      simp only [M.bind_eq, M.pure_eq, M.bind_assoc, M.bind_emit, M.bind_getStore,
        M.bind_pathExists, hsel, hdoc, hne, List.nil_append, Bool.false_eq_true, if_false,
        false_and, M.pure]
  refine ⟨hmain, ?_⟩
  intro p hp
  by_contra hne
  rw [hmain hne] at hp
  simp at hp

/-- Witness for C5: stored text `"x"` is returned unchanged and no OCR runs. -/
theorem resolve_text_prefers_store_text_witness :
    get_extracted_text_with_ocr_fallback {} "d1" (some "/tmp/f.pdf")
        ⟨fun i => if i = "d1" then some { attr_content := some (.str "x") } else none,
         fun _ => none, []⟩ =
      (.ok "x",
       ⟨fun i => if i = "d1" then some { attr_content := some (.str "x") } else none,
        fun _ => none, [.select "d1"]⟩) :=
  (resolve_text_prefers_store_text {} "d1" (some "/tmp/f.pdf") _ _
      { attr_content := some (.str "x") } rfl (by simp)).1 (by decide)

/-- C6: when the stored text is empty and OCR yields non-empty text, the
resolution returns exactly the OCR output whether or not the write-back
succeeds — the environment's `updateOcrErr` flag is arbitrary, and a failing
write-back is caught rather than propagated. -/
theorem ocr_writeback_failure_preserves_text (env : Env) (docId p : String)
    (store : String → Option SolrDoc) (files : String → Option (List Nat)) (d : SolrDoc)
    (bytes : List Nat)
    (hsel : env.fallbackSelectErr = false) (hdoc : store docId = some d)
    (hempty : pyStrip (contentToText d.attr_content) = "")
    (hfile : files p = some bytes)
    (hocr : pyStrip (env.ocr bytes) ≠ "") :
    (get_extracted_text_with_ocr_fallback env docId (some p) ⟨store, files, []⟩).1 =
      .ok (pyStrip (env.ocr bytes)) := by
  unfold get_extracted_text_with_ocr_fallback
  simp only [M.bind_eq, M.pure_eq, M.bind_assoc, M.bind_emit, M.bind_getStore,
    M.bind_pathExists, bind_extract_ocr, hsel, hdoc, hempty, hfile, List.nil_append,
    Bool.false_eq_true, if_false, Option.isSome_some, and_self, if_true, hocr,
    ne_eq, not_false_eq_true]
  by_cases herr : env.updateOcrErr = true <;>
    simp [M.tryCatch, update_solr_with_ocr_text, M.bind_eq, M.bind_assoc, M.bind_emit,
      M.emit, herr, M.throw, M.setContentField, M.pure, M.bind, hocr]

/-- Witness for C6 with a failing write-back (`updateOcrErr = true`): the OCR
output `"O"` is still returned. -/
theorem ocr_writeback_failure_preserves_text_witness :
    (get_extracted_text_with_ocr_fallback
        { updateOcrErr := true, ocr := fun _ => "O" } "d1" (some "/a/f.pdf")
        ⟨fun i => if i = "d1" then some {} else none,
         fun q => if q = "/a/f.pdf" then some [5] else none, []⟩).1 = .ok "O" :=
  ocr_writeback_failure_preserves_text { updateOcrErr := true, ocr := fun _ => "O" }
    "d1" "/a/f.pdf" _ _ {} [5] rfl (by simp) (by decide) (by simp) (by decide)

/-- C7: the locator of re-summarize-by-id prefers the scheme-stripped
`source_uri` path whenever it exists on disk; only when the uri is absent or
its path missing does it probe the fixed ordered candidate list, returning the
first existing candidate, and `none` when no candidate exists either. -/
theorem locate_source_prefers_uri (files : String → Option (List Nat)) (d : SolrDoc)
    (docId origFn : String) :
    (fieldTruthy d.file_uri = true →
      (files (stripScheme (fileUriToPath ((d.file_uri).getD (.str ""))))).isSome = true →
      locatePdfPath files d docId origFn =
        some (stripScheme (fileUriToPath ((d.file_uri).getD (.str ""))))) ∧
    (fieldTruthy d.file_uri = false ∨
        (files (stripScheme (fileUriToPath ((d.file_uri).getD (.str ""))))).isSome = false →
      locatePdfPath files d docId origFn =
        (candidatePaths docId origFn).find? (fun p => (files p).isSome)) ∧
    (fieldTruthy d.file_uri = false ∨
        (files (stripScheme (fileUriToPath ((d.file_uri).getD (.str ""))))).isSome = false →
      (∀ p ∈ candidatePaths docId origFn, (files p).isSome = false) →
      locatePdfPath files d docId origFn = none) := by
  have hpart2 : fieldTruthy d.file_uri = false ∨
      (files (stripScheme (fileUriToPath ((d.file_uri).getD (.str ""))))).isSome = false →
      locatePdfPath files d docId origFn =
        (candidatePaths docId origFn).find? (fun p => (files p).isSome) := by
    intro h
    rcases h with h | h
    · simp [locatePdfPath, h]
    · by_cases h2 : fieldTruthy d.file_uri = true
      · simp [locatePdfPath, h2, h]
      · simp [locatePdfPath, h2]
  refine ⟨?_, hpart2, ?_⟩
  · intro h1 h2
    simp [locatePdfPath, h1, h2]
  · intro h hall
    rw [hpart2 h]
    rw [List.find?_eq_none]
    intro p hp
    simp [hall p hp]

/-- Witness for C7: both the uri path and a conventional candidate exist; the
uri path wins. -/
theorem locate_source_prefers_uri_witness :
    locatePdfPath
        (fun q => if q = "/a/orig.pdf" then some [1] else
          if q = "/tmp/f.pdf" then some [2] else none)
        { file_uri := some (.str "file:///a/orig.pdf") } "doc_x" "f.pdf" =
      some "/a/orig.pdf" :=
  (locate_source_prefers_uri _ { file_uri := some (.str "file:///a/orig.pdf") }
      "doc_x" "f.pdf").1 (by decide) (by decide)

/-- C8: `summarize_document` never raises; empty input yields `none` with no
LLM call and an unchanged world; a raising LLM call yields `none`; and any
returned summary is exactly the concatenation of the parts of the first
candidate of the LLM response. -/
theorem summarize_never_raises (env : Env) (text : String) (q : Option String) (w : World) :
    (∃ a, (summarize_document env text q w).1 = .ok a) ∧
    (text = "" → summarize_document env text q w = (.ok none, w)) ∧
    (text ≠ "" → env.gemini (buildPrompt text q) = .error () →
      (summarize_document env text q w).1 = .ok none) ∧
    (∀ s, (summarize_document env text q w).1 = .ok (some s) →
      ∃ resp cand rest ct, env.gemini (buildPrompt text q) = .ok resp ∧
        resp.candidates = cand :: rest ∧ cand.content = some ct ∧ ct.parts ≠ [] ∧
        s = concatParts ct.parts) := by
  refine ⟨neverErr_summarize env text q w, ?_, ?_, ?_⟩
  · intro h
    subst h
    rfl
  · intro hne herr
    unfold summarize_document
    simp only [M.bind_eq, M.pure_eq]
    rw [if_neg hne]
    simp only [M.bind_emit, herr, M.pure]
  · intro s hs
    unfold summarize_document at hs
    simp only [M.bind_eq, M.pure_eq] at hs
    by_cases hne : text = ""
    · rw [if_pos hne] at hs
      simp [M.pure] at hs
    · rw [if_neg hne] at hs
      simp only [M.bind_emit] at hs
      cases hg : env.gemini (buildPrompt text q) with
      | error e =>
        rw [hg] at hs
        simp [M.pure] at hs
      | ok resp =>
        rw [hg] at hs
        rcases resp with ⟨cands⟩
        cases cands with
        | nil => simp [M.pure] at hs
        | cons cand rest =>
          rcases cand with ⟨ct⟩
          cases ct with
          | none => simp [M.pure] at hs
          | some c =>
            rcases c with ⟨parts⟩
            cases parts with
            | nil => simp [M.pure] at hs
            | cons ph pt =>
              simp only [M.pure, Except.ok.injEq, Option.some.injEq] at hs
              exact ⟨⟨⟨some ⟨ph :: pt⟩⟩ :: rest⟩, ⟨some ⟨ph :: pt⟩⟩, rest, ⟨ph :: pt⟩, rfl,
                rfl, rfl, by simp, hs.symm⟩

/-- Witness for C8: empty input short-circuits with no effect; with the
default always-failing LLM oracle, non-empty input yields `none`. -/
theorem summarize_never_raises_witness :
    summarize_document {} "" none ⟨fun _ => none, fun _ => none, []⟩ =
      (.ok none, ⟨fun _ => none, fun _ => none, []⟩) ∧
    (summarize_document {} "t" none ⟨fun _ => none, fun _ => none, []⟩).1 = .ok none :=
  ⟨(summarize_never_raises {} "" none ⟨fun _ => none, fun _ => none, []⟩).2.1 rfl,
   (summarize_never_raises {} "t" none ⟨fun _ => none, fun _ => none, []⟩).2.2.1
     (by decide) rfl⟩

end Finserv
